import Mathlib

/-!
Shallow embedding of the pmud world-simulation engine
(mud/game/areas.py, mud/game/mobs.py, mud/game/combat.py,
mud/server/players.py, mud/server/manager.py).

Python objects live in explicit heaps: players keyed by display name,
mobs keyed by their id; rooms by numeric id.  A mutating method becomes
a function on `World`; a method that can raise an uncaught exception
returns `Except World World`, where the `error` constructor carries the
world as mutated up to the raise point (Python leaves partial mutations
in place when an exception propagates).  Randomness (`uuid4`,
`random.randrange`, `random.random`) is supplied through an `Oracle`
argument.  Outbound text (`player.send_text`) is modelled as an
append-only log of (recipient name, text) pairs.
-/

namespace PMud

/-- Association-list lookup: mirrors a Python dict key lookup
(insertion order preserved, keys unique). -/
def alookup {α β : Type} [DecidableEq α] : List (α × β) → α → Option β
| [], _ => none
| (k, v) :: rest, k0 => if k = k0 then some v else alookup rest k0

/-- Dict assignment `d[k] = v`: replace the value at an existing key in
place, otherwise append the new binding at the end. -/
def aset {α β : Type} [DecidableEq α] : List (α × β) → α → β → List (α × β)
| [], k0, v0 => [(k0, v0)]
| (k, v) :: rest, k0, v0 => if k = k0 then (k0, v0) :: rest else (k, v) :: aset rest k0 v0

/-- In-place update of the value stored at a key (no-op if absent). -/
def amodify {α β : Type} [DecidableEq α] : List (α × β) → α → (β → β) → List (α × β)
| [], _, _ => []
| (k, v) :: rest, k0, f => if k = k0 then (k, f v) :: rest else (k, v) :: amodify rest k0 f

/-- Dict key insertion for a set of keys: a repeated key keeps its
position, a new key is appended (Python dict assignment, keys only). -/
def dinsert {α : Type} [DecidableEq α] (l : List α) (a : α) : List α :=
  if a ∈ l then l else l ++ [a]

/-- Dict `pop`: remove the first occurrence of a key. -/
def derase {α : Type} [DecidableEq α] : List α → α → List α
| [], _ => []
| x :: rest, a => if x = a then rest else x :: derase rest a

/-- Update the element at a list index in place (no-op if out of range).
Models mutation of the object held at that position of a Python list. -/
def lmodify {α : Type} : List α → Nat → (α → α) → List α
| [], _, _ => []
| a :: rest, 0, f => f a :: rest
| a :: rest, n + 1, f => a :: lmodify rest n f

/-- Python `str.capitalize()`: first character upper-cased, the rest
lower-cased. -/
def capitalize (s : String) : String :=
  match s.data with
  | [] => ""
  | c :: cs => String.mk (c.toUpper :: cs.map Char.toLower)

/-- The float literal 0.1 (the default mob move_chance), as the
rational 1/10, given in normalized form so that it reduces in the
kernel. -/
def ratTenth : ℚ := Rat.mk' 1 10 (by decide) (Nat.coprime_one_left 10)

/-- Python `random.randrange(a, b)` for `a < b`: uniform over the
integers `a, a+1, ..., b-1` (the stop bound `b` is excluded).  The draw
is supplied as an arbitrary natural `r`; `r % (b - a)` is uniform over
`[0, b-a)` when `r` is. -/
def randrange (a b r : Nat) : Nat := a + r % (b - a)

/-- The four movement directions (Direction enum in areas.py). -/
inductive Direction
| n
| e
| s
| w
deriving DecidableEq, Repr

/-- Direction enum string value ("n", "e", "s", "w"). -/
def Direction.val : Direction → String
| .n => "n"
| .e => "e"
| .s => "s"
| .w => "w"

/-- Direction.text. -/
def Direction.text : Direction → String
| .n => "north"
| .e => "east"
| .s => "south"
| .w => "west"

/-- A mob (npc), mobs.py.  The Python `on_death` list holds `dec`
closures created in Room.spawn; each closure captures one spawn entry,
identified here by (room id, index into that room's spawns list).
`room` is the mob's back-reference to the room it thinks it is in. -/
structure Mob where
  id : Nat
  name : String
  level : Nat
  strength : Nat
  constitution : Nat
  dexterity : Nat
  intelligence : Nat := 10
  health : Int := 10
  attack_damage : Nat × Nat := (1, 2)
  move_cooldown : Int := 20
  move_lock : Int := 0
  move_chance : ℚ := ratTenth
  enter_text : String := "arrives"
  leave_text : String := "leaves"
  present_text : String := "is here"
  room : Option Nat := none
  wanders : Bool := false
  in_combat : Bool := false
  on_death : List (Nat × Nat) := []
deriving DecidableEq, Repr

/-- An instance of combat between a player and an npc (combat.py);
`target` is a reference to the targeted mob. -/
structure Combat where
  target : Nat
  player_initiative : Bool := true
deriving DecidableEq, Repr

/-- A player connected to the game (players.py).  The websocket session
and send_text callable are modelled by the world's message log, keyed by
the player's name. -/
structure Player where
  name : String
  health : Int := 10
  attack_damage : Nat × Nat := (4, 6)
  room : Option Nat := none
  combat : Option Combat := none
deriving DecidableEq, Repr

/-- SpawnedMobs: tracks mobs that should spawn in a room (areas.py). -/
structure SpawnedMobs where
  mob : Mob
  desired : Int
  current : Int := 0
deriving DecidableEq, Repr

/-- A room in the game (areas.py).  `players` holds the names keying the
room's player dict, `mobs` the ids keying its mob dict; the objects
themselves live in the world heaps. -/
structure Room where
  id : Nat
  title : String
  desc : String
  players : List String := []
  exits : List (Direction × Nat) := []
  spawns : List SpawnedMobs := []
  spawn_cooldown : Int := 10
  spawn_lock : Int := 0
  mobs : List Nat := []
deriving DecidableEq, Repr

/-- The whole mutable game state: the global `rooms` dict of areas.py,
the heap of Player objects (also the Mud.players registry, keyed by
name), the heap of Mob objects (keyed by id), and the log of text sent
to player sessions. -/
structure World where
  rooms : List (Nat × Room)
  playerHeap : List (String × Player)
  mobHeap : List (Nat × Mob)
  log : List (String × String)
deriving DecidableEq, Repr

def World.getRoom (w : World) (rid : Nat) : Option Room := alookup w.rooms rid

def World.setRoom (w : World) (rid : Nat) (r : Room) : World :=
  { w with rooms := aset w.rooms rid r }

def World.modifyRoom (w : World) (rid : Nat) (f : Room → Room) : World :=
  { w with rooms := amodify w.rooms rid f }

def World.getMob (w : World) (mid : Nat) : Option Mob := alookup w.mobHeap mid

def World.setMob (w : World) (mid : Nat) (m : Mob) : World :=
  { w with mobHeap := aset w.mobHeap mid m }

def World.modifyMob (w : World) (mid : Nat) (f : Mob → Mob) : World :=
  { w with mobHeap := amodify w.mobHeap mid f }

def World.getPlayer (w : World) (pname : String) : Option Player := alookup w.playerHeap pname

def World.setPlayer (w : World) (pname : String) (p : Player) : World :=
  { w with playerHeap := aset w.playerHeap pname p }

def World.modifyPlayer (w : World) (pname : String) (f : Player → Player) : World :=
  { w with playerHeap := amodify w.playerHeap pname f }

/-- player.send_text(text): append one message to the log. -/
def World.send (w : World) (pname text : String) : World :=
  { w with log := w.log ++ [(pname, text)] }

/-- Result of a stateful operation: normal return, or an uncaught Python
exception; both constructors carry the world as mutated so far. -/
abbrev ExcM := Except World World

def wok (w : World) : ExcM := Except.ok w

def wcrash (w : World) : ExcM := Except.error w

/-- The world carried by an operation result, for ok and crash alike. -/
def ExcM.state : ExcM → World
| Except.ok w => w
| Except.error w => w

/-- Whether an operation returned normally (no uncaught exception). -/
def ExcM.okB : ExcM → Bool
| Except.ok _ => true
| Except.error _ => false

/-- Mob.format_enter_text. -/
def Mob.format_enter_text (m : Mob) : String :=
  capitalize m.name ++ " " ++ m.enter_text ++ "."

/-- Mob.format_leave_text. -/
def Mob.format_leave_text (m : Mob) : String :=
  capitalize m.name ++ " " ++ m.leave_text

/-- Mob.format_present_text. -/
def Mob.format_present_text (m : Mob) : String :=
  capitalize m.name ++ " " ++ m.present_text ++ "."

/-- Room.format_exits. -/
def Room.format_exits (r : Room) : String :=
  "[" ++ String.intercalate ", " (r.exits.map (fun p => p.1.val)) ++ "]"

/-- Room.format_mobs: one present-text line per mob in the room map. -/
def Room.format_mobs (w : World) (r : Room) : String :=
  String.intercalate "\n" (r.mobs.filterMap (fun mid => (w.getMob mid).map Mob.format_present_text))

/-- Room.format_room (the dedent-ed f-string of areas.py). -/
def Room.format_room (w : World) (r : Room) : String :=
  "\n" ++ r.title ++ "\n\n" ++ r.desc ++ "\n\nExits: " ++ r.format_exits
    ++ "\n\n" ++ Room.format_mobs w r ++ "\n"

/-- Room.random_exit: ValueError (none) when there are no exits; with
one exit return it; otherwise index the exit keys by
`randrange(0, len(exits))`. -/
def Room.random_exit (r : Room) (seed : Nat) : Option Direction :=
  let exits := r.exits.map (fun p => p.1)
  if exits.length = 0 then none
  else if exits.length = 1 then exits.get? 0
  else exits.get? (seed % r.exits.length)

/-- Room.broadcast: send text to all players present in the room. -/
def Room.broadcast (w : World) (rid : Nat) (text : String) : World :=
  match World.getRoom w rid with
  | none => w
  | some r => { w with log := w.log ++ r.players.map (fun pname => (pname, text)) }

/-- Room.enter: broadcast the arrival to the current occupants, add the
player to the room's player dict, set the player's room handle, then
send the player the full room description. -/
def Room.enter (w : World) (rid : Nat) (pname : String) : ExcM :=
  match World.getRoom w rid with
  | none => wcrash w
  | some r =>
    let w1 := Room.broadcast w rid (pname ++ " enters.")
    let w2 := World.setRoom w1 rid { r with players := dinsert r.players pname }
    let w3 := World.modifyPlayer w2 pname (fun p => { p with room := some rid })
    match World.getRoom w3 rid with
    | none => wcrash w3
    | some r2 => wok (World.send w3 pname (Room.format_room w3 r2))

/-- Room.leave: with no exit in the chosen direction, send the player an
error listing the valid exits and change nothing.  Otherwise pop the
player from this room, enter the destination room, then broadcast the
departure to this room's remaining occupants. -/
def Room.leave (w : World) (rid : Nat) (pname : String) (dir : Direction) : ExcM :=
  match World.getRoom w rid with
  | none => wcrash w
  | some r =>
    match alookup r.exits dir with
    | none => wok (World.send w pname ("You cannot go that way. Exits: " ++ Room.format_exits r))
    | some nextId =>
      if pname ∈ r.players then
        let w1 := World.setRoom w rid { r with players := derase r.players pname }
        match World.getRoom w1 nextId with
        | none => wcrash w1
        | some _ =>
          match Room.enter w1 nextId pname with
          | Except.error e => Except.error e
          | Except.ok w2 => wok (Room.broadcast w2 rid (pname ++ " leaves."))
      else wcrash w

/-- Room.add_mob: put the mob in the room's mob dict, set its room
handle, then announce its arrival. -/
def Room.add_mob (w : World) (rid : Nat) (mob : Mob) : ExcM :=
  match World.getRoom w rid with
  | none => wcrash w
  | some r =>
    let w1 := World.setRoom w rid { r with mobs := dinsert r.mobs mob.id }
    let w2 := World.setMob w1 mob.id mob
    let w3 := World.modifyMob w2 mob.id (fun m => { m with room := some rid })
    wok (Room.broadcast w3 rid (Mob.format_enter_text mob))

/-- Room.move_mob: look up the destination through the exit, pop the mob
from this room's dict, add it to the destination, then announce the
departure here. -/
def Room.move_mob (w : World) (rid : Nat) (mid : Nat) (dir : Direction) : ExcM :=
  match World.getRoom w rid with
  | none => wcrash w
  | some r =>
    match alookup r.exits dir with
    | none => wcrash w
    | some nextId =>
      match World.getRoom w nextId with
      | none => wcrash w
      | some _ =>
        if mid ∈ r.mobs then
          let w1 := World.setRoom w rid { r with mobs := derase r.mobs mid }
          match World.getMob w1 mid with
          | none => wcrash w1
          | some m =>
            match Room.add_mob w1 nextId m with
            | Except.error e => Except.error e
            | Except.ok w2 =>
              match World.getMob w2 mid with
              | none => wcrash w2
              | some m2 =>
                wok (Room.broadcast w2 rid (Mob.format_leave_text m2 ++ " " ++ dir.text ++ "."))
        else wcrash w

/-- One `dec` closure from Room.spawn: decrement the live count of the
captured spawn entry (room id, entry index). -/
def runOnDeath (w : World) (cb : Nat × Nat) : World :=
  World.modifyRoom w cb.1 (fun r =>
    { r with spawns := lmodify r.spawns cb.2 (fun e => { e with current := e.current - 1 }) })

/-- Mob.die: broadcast the death to the mob's room, run the on_death
callbacks, clear the room handle.  A mob whose `room` is None raises
(AttributeError on `None.broadcast`) before any callback runs. -/
def Mob.die (w : World) (mid : Nat) : ExcM :=
  match World.getMob w mid with
  | none => wcrash w
  | some m =>
    match m.room with
    | none => wcrash w
    | some rid =>
      let w1 := Room.broadcast w rid (m.name ++ " dies.")
      let w2 := m.on_death.foldl runOnDeath w1
      wok (World.modifyMob w2 mid (fun m2 => { m2 with room := none }))

/-- Mob.take_damage: subtract the damage; die only when the resulting
health is strictly negative. -/
def Mob.take_damage (w : World) (mid : Nat) (damage : Int) : ExcM :=
  match World.getMob w mid with
  | none => wcrash w
  | some m =>
    let w1 := World.setMob w mid { m with health := m.health - damage }
    if m.health - damage < 0 then Mob.die w1 mid else wok w1

/-- Random values consumed during one operation: fresh uuids for spawned
mobs (per room and spawn-entry index), the two randrange draws of a
player's attack, and a mob's move-chance and exit draws. -/
structure Oracle where
  fresh : Nat → Nat → Nat
  roll_player : String → Nat
  roll_mob : String → Nat
  move_roll : Nat → ℚ
  exit_roll : Nat → Nat

/-- Mob.update: skip when not placed in a room; skip entirely while in
combat (the move lock does not tick down); tick down a positive move
lock; otherwise wander through a random exit when the mob wanders, an
exit exists, and the uniform draw is at most the move chance. -/
def Mob.update (w : World) (mid : Nat) (o : Oracle) : ExcM :=
  match World.getMob w mid with
  | none => wcrash w
  | some m =>
    match m.room with
    | none => wok w
    | some rid =>
      if m.in_combat then wok w
      else if 0 < m.move_lock then
        wok (World.modifyMob w mid (fun m2 => { m2 with move_lock := m2.move_lock - 1 }))
      else
        match World.getRoom w rid with
        | none => wcrash w
        | some r =>
          if m.wanders = true ∧ 0 < r.exits.length ∧ o.move_roll mid ≤ m.move_chance then
            let w1 := World.modifyMob w mid
              (fun m2 => { m2 with move_lock := m2.move_lock + m2.move_cooldown })
            match Room.random_exit r (o.exit_roll mid) with
            | none => wcrash w1
            | some dir => Room.move_mob w1 rid mid dir
          else wok w

/-- Player.die: clear the combat target's in_combat flag, clear the
combat session, send the death notice, clear the player's room. -/
def Player.die (w : World) (pname : String) : ExcM :=
  match World.getPlayer w pname with
  | none => wcrash w
  | some p =>
    let w1 := match p.combat with
      | none => w
      | some c => World.modifyMob w c.target (fun m => { m with in_combat := false })
    let w2 := World.modifyPlayer w1 pname (fun p2 => { p2 with combat := none })
    let w3 := World.send w2 pname "You die."
    wok (World.modifyPlayer w3 pname (fun p2 => { p2 with room := none }))

/-- Player.take_damage: subtract the damage; die only when the resulting
health is strictly negative. -/
def Player.take_damage (w : World) (pname : String) (damage : Int) : ExcM :=
  match World.getPlayer w pname with
  | none => wcrash w
  | some p =>
    let w1 := World.setPlayer w pname { p with health := p.health - damage }
    if p.health - damage < 0 then Player.die w1 pname else wok w1

/-- Room.get_mob: first mob in the room's dict whose name matches, else
ValueError (none). -/
def Room.get_mob (w : World) (r : Room) (target : String) : Option Nat :=
  r.mobs.find? (fun mid =>
    match World.getMob w mid with
    | some m => m.name == target
    | none => false)

/-- Player.start_combat: no-op without a room; report the ValueError
text when the target name is not present; otherwise create a Combat
session targeting the found mob. -/
def Player.start_combat (w : World) (pname target : String) : ExcM :=
  match World.getPlayer w pname with
  | none => wcrash w
  | some p =>
    match p.room with
    | none => wok w
    | some rid =>
      match World.getRoom w rid with
      | none => wcrash w
      | some r =>
        match Room.get_mob w r target with
        | none => wok (World.send w pname ("There\x27s nobody named " ++ target ++ " here."))
        | some mid =>
          wok (World.modifyPlayer w pname (fun p2 => { p2 with combat := some { target := mid } }))

/-- Player.attack: draw both damage rolls up front from the two
attack_damage ranges with randrange, then narrate and apply the two
take_damage calls in initiative order. -/
def Player.attack (w : World) (pname : String) (mid : Nat) (o : Oracle) : ExcM :=
  match World.getPlayer w pname with
  | none => wcrash w
  | some p =>
    match p.combat with
    | none => wok w
    | some c =>
      match World.getMob w mid with
      | none => wcrash w
      | some m =>
        let dmg_to_mob := randrange p.attack_damage.1 p.attack_damage.2 (o.roll_player pname)
        let dmg_to_player := randrange m.attack_damage.1 m.attack_damage.2 (o.roll_mob pname)
        let tname := match World.getMob w c.target with
          | some t => t.name
          | none => ""
        if c.player_initiative then
          let w1 := World.send w pname
            ("You attack " ++ tname ++ " for " ++ toString dmg_to_mob ++ " damage.")
          match Mob.take_damage w1 mid (dmg_to_mob : Int) with
          | Except.error e => Except.error e
          | Except.ok w2 =>
            let w3 := World.send w2 pname
              (capitalize tname ++ " attacks you for " ++ toString dmg_to_player ++ " damage.")
            Player.take_damage w3 pname (dmg_to_player : Int)
        else
          let w1 := World.send w pname
            (capitalize tname ++ " attacks you for " ++ toString dmg_to_player ++ " damage.")
          match Player.take_damage w1 pname (dmg_to_player : Int) with
          | Except.error e => Except.error e
          | Except.ok w2 =>
            let w3 := World.send w2 pname
              ("You attack " ++ tname ++ " for " ++ toString dmg_to_mob ++ " damage.")
            Mob.take_damage w3 mid (dmg_to_mob : Int)

/-- Player.update: when a combat session is active, run one attack
exchange against its target. -/
def Player.update (w : World) (pname : String) (o : Oracle) : ExcM :=
  match World.getPlayer w pname with
  | none => wcrash w
  | some p =>
    match p.combat with
    | none => wok w
    | some c => Player.attack w pname c.target o

/-- Player.move: asserts the player has a room, then Room.leave. -/
def Player.move (w : World) (pname : String) (dir : Direction) : ExcM :=
  match World.getPlayer w pname with
  | none => wcrash w
  | some p =>
    match p.room with
    | none => wcrash w
    | some rid => Room.leave w rid pname dir

/-- Exception-propagating fold: a Python for-loop whose body may raise. -/
def foldE {α : Type} (f : World → α → ExcM) : World → List α → ExcM
| w, [] => wok w
| w, a :: rest =>
  match f w a with
  | Except.error e => Except.error e
  | Except.ok w1 => foldE f w1 rest

/-- The for-loop of Room.spawn over the spawn entries, by index.  Each
iteration re-reads the room: a positive spawn_lock aborts the whole
pass; an entry with current < desired spawns a copy of its template mob
(fresh id, a single dec callback), increments current, and adds the
spawn cooldown to the lock. -/
def Room.spawnGo (rid : Nat) (o : Oracle) : World → List Nat → ExcM
| w, [] => wok w
| w, i :: rest =>
  match World.getRoom w rid with
  | none => wcrash w
  | some r =>
    if 0 < r.spawn_lock then wok w
    else
      match r.spawns.get? i with
      | none => Room.spawnGo rid o w rest
      | some entry =>
        if entry.current < entry.desired then
          let spawned := { entry.mob with id := o.fresh rid i, on_death := [(rid, i)] }
          match Room.add_mob w rid spawned with
          | Except.error e => Except.error e
          | Except.ok w1 =>
            let w2 := World.modifyRoom w1 rid (fun r2 =>
              { r2 with spawns := lmodify r2.spawns i (fun e => { e with current := e.current + 1 }) })
            let w3 := World.modifyRoom w2 rid (fun r2 =>
              { r2 with spawn_lock := r2.spawn_lock + r2.spawn_cooldown })
            Room.spawnGo rid o w3 rest
        else Room.spawnGo rid o w rest

/-- Room.spawn: attempt to spawn the mobs defined in the room's spawn
entries, iterating them in list order. -/
def Room.spawn (w : World) (rid : Nat) (o : Oracle) : ExcM :=
  match World.getRoom w rid with
  | none => wcrash w
  | some r => Room.spawnGo rid o w (List.range r.spawns.length)

/-- Room.update, one game tick for the room: tick down a positive
spawn_lock, run spawn, then update a snapshot of the present players,
then a snapshot of the present mobs. -/
def Room.update (w : World) (rid : Nat) (o : Oracle) : ExcM :=
  match World.getRoom w rid with
  | none => wcrash w
  | some r =>
    let w1 := if 0 < r.spawn_lock then
        World.modifyRoom w rid (fun r2 => { r2 with spawn_lock := r2.spawn_lock - 1 })
      else w
    match Room.spawn w1 rid o with
    | Except.error e => Except.error e
    | Except.ok w2 =>
      match World.getRoom w2 rid with
      | none => wcrash w2
      | some r2 =>
        match foldE (fun wa pname => Player.update wa pname o) w2 r2.players with
        | Except.error e => Except.error e
        | Except.ok w3 =>
          match World.getRoom w3 rid with
          | none => wcrash w3
          | some r3 => foldE (fun wa mid => Mob.update wa mid o) w3 r3.mobs

/-- Mud.update: update every room, in the fixed room-list order. -/
def Mud.update (w : World) (o : Oracle) : ExcM :=
  foldE (fun wa rid => Room.update wa rid o) w (w.rooms.map Prod.fst)

/-- Mud.add_player: create the Player, register it by name, greet it,
and put it in the start room (Room1, id 1). -/
def Mud.add_player (w : World) (name : String) : ExcM :=
  let p : Player := { name := name }
  let w1 : World := { w with playerHeap := aset w.playerHeap name p }
  let w2 := World.send w1 name ("Joining game as " ++ name)
  Room.enter w2 1 name

/-- The rat template mob1 (mobs.py).  Its uuid is irrelevant: templates
are only ever copied with a fresh id. -/
def mob1 : Mob :=
  { id := 0, name := "a rat", level := 1, wanders := true,
    strength := 1, constitution := 1, dexterity := 2, intelligence := 1,
    enter_text := "crawls out from behind some rubble", leave_text := "scurries" }

/-- Room2 (areas.py). -/
def Room2 : Room :=
  { id := 2, title := "A forest trail",
    desc := "You are on a trail through a forest. Tall trees tower overhead.",
    exits := [(Direction.s, 1)],
    spawns := [{ mob := mob1, desired := 2 }] }

/-- Room1 (areas.py). -/
def Room1 : Room :=
  { id := 1, title := "Forest Clearing",
    desc := "A clearing in the forest. A trail leads north.",
    exits := [(Direction.n, 2)] }

/-- The initial world: the static room graph of areas.py, no players,
no mobs, nothing sent. -/
def mudInit : World :=
  { rooms := [(1, Room1), (2, Room2)], playerHeap := [], mobHeap := [], log := [] }

/-- The world-mutating operations reachable from the websocket command
handler and the tick loop: a simulation tick, a name registration, a
movement command, and an attack command. -/
inductive Event
| tick (o : Oracle)
| join (name : String)
| move (name : String) (dir : Direction)
| kill (name target : String)

/-- One event applied to the world. -/
def stepE (w : World) : Event → ExcM
| Event.tick o => Mud.update w o
| Event.join name => Mud.add_player w name
| Event.move name dir => Player.move w name dir
| Event.kill name target => Player.start_combat w name target

/-- States reachable from the initial world; a crashed operation leaves
its partially mutated world in place (the exception propagates out of
the task), so both result constructors yield a reachable state. -/
inductive Reachable : World → Prop
| init : Reachable mudInit
| step (w : World) (e : Event) : Reachable w → Reachable (stepE w e).state

/-- The spawn-count invariant of the spec: every spawn entry of every
room has its live count at most its desired count. -/
def spawnInv (w : World) : Prop :=
  ∀ p ∈ w.rooms, ∀ e ∈ p.2.spawns, e.current ≤ e.desired

/-- N consecutive per-tick updates of one player (the per-tick oracle is
drawn from the stream os), as performed for a player by Room.update on
each simulation tick while combat is active. -/
def runTicks (pname : String) (os : Nat → Oracle) : World → Nat → ExcM
| w, 0 => wok w
| w, n + 1 =>
  match Player.update w pname (os n) with
  | Except.error e => Except.error e
  | Except.ok w1 => runTicks pname os w1 n

/-! ### Concrete test fixtures -/

/-- An oracle with all draws fixed: fresh ids 100, 101, ...; damage
rolls 0; the move-chance draw 0 (so an eligible mob always moves). -/
def oZero : Oracle :=
  { fresh := fun _ i => 100 + i, roll_player := fun _ => 0, roll_mob := fun _ => 0,
    move_roll := fun _ => 0, exit_roll := fun _ => 0 }

/-- A spawned rat instance: id 7, placed in room 2, carrying the dec
callback for room 2's first spawn entry. -/
def rat7 : Mob := { mob1 with id := 7, room := some 2, on_death := [(2, 0)] }

/-- Room 2 with the spawned rat present and its spawn entry at 1. -/
def room2_c1 : Room :=
  { Room2 with mobs := [7], spawns := [{ mob := mob1, desired := 2, current := 1 }] }

/-- A world in which room 2 holds one spawned rat (id 7) whose death
callback decrements the room's single spawn entry, currently at 1. -/
def w_c1 : World :=
  { rooms := [(1, Room1), (2, room2_c1)],
    playerHeap := [],
    mobHeap := [(7, rat7)],
    log := [] }

/-- A world with the player alice and a rat (id 7) together in room 2. -/
def w_c3 : World :=
  { rooms := [(1, Room1), (2, { Room2 with players := ["alice"], mobs := [7] })],
    playerHeap := [("alice", { name := "alice", room := some 2 })],
    mobHeap := [(7, { mob1 with id := 7, room := some 2 })],
    log := [] }

/-- A room with a zero spawn cooldown and two spawn entries, both below
their desired counts. -/
def w_c5 : World :=
  { rooms := [(5, { id := 5, title := "t", desc := "d", spawn_cooldown := 0,
                    spawns := [{ mob := mob1, desired := 1 }, { mob := mob1, desired := 1 }] })],
    playerHeap := [], mobHeap := [], log := [] }

/-- The player bob, located in room 1 and in combat with mob id 7. -/
def bob : Player := { name := "bob", room := some 1, combat := some { target := 7 } }

/-- A rat (id 7) in room 1 with its in_combat flag set. -/
def rat7fighting : Mob := { mob1 with id := 7, room := some 1, in_combat := true }

/-- A world with the player bob in room 1, in combat with a rat (id 7)
whose in_combat flag is set. -/
def w_c2 : World :=
  { rooms := [(1, { Room1 with players := ["bob"] }), (2, Room2)],
    playerHeap := [("bob", bob)],
    mobHeap := [(7, rat7fighting)],
    log := [] }

/-- A rat (id 8) in room 2 with a ticking move lock. -/
def rat8 : Mob := { mob1 with id := 8, room := some 2, move_lock := 5 }

/-- A world with the move-locked rat 8 alone in room 2. -/
def w_c8 : World :=
  { rooms := [(1, Room1), (2, { Room2 with mobs := [8] })],
    playerHeap := [], mobHeap := [(8, rat8)], log := [] }

/-- Room 2 occupied by carol. -/
def room2_c9 : Room := { Room2 with players := ["carol"] }

/-- A world with carol in room 2 and dave connected but roomless. -/
def w_c9 : World :=
  { rooms := [(1, Room1), (2, room2_c9)],
    playerHeap := [("carol", { name := "carol", room := some 2 }), ("dave", { name := "dave" })],
    mobHeap := [],
    log := [] }

/-! ### Association-list and accessor lemmas -/

theorem alookup_aset_self {α β : Type} [DecidableEq α] (l : List (α × β)) (k : α) (v : β) :
    alookup (aset l k v) k = some v := by
  induction l with
  | nil => simp [aset, alookup]
  | cons p rest ih =>
    obtain ⟨a, b⟩ := p
    by_cases h : a = k
    · subst h
      simp [aset, alookup]
    · simp [aset, alookup, h, ih]

theorem alookup_aset_ne {α β : Type} [DecidableEq α] (l : List (α × β)) (k k2 : α) (v : β)
    (h : k2 ≠ k) : alookup (aset l k v) k2 = alookup l k2 := by
  have hk : ¬ k = k2 := Ne.symm h
  induction l with
  | nil => simp [aset, alookup, hk]
  | cons p rest ih =>
    obtain ⟨a, b⟩ := p
    by_cases hp : a = k
    · subst hp
      simp [aset, alookup, hk]
    · simp [aset, alookup, hp, ih]

theorem alookup_amodify_self {α β : Type} [DecidableEq α] (l : List (α × β)) (k : α)
    (f : β → β) (v : β) (h : alookup l k = some v) :
    alookup (amodify l k f) k = some (f v) := by
  induction l with
  | nil => simp [alookup] at h
  | cons p rest ih =>
    obtain ⟨a, b⟩ := p
    by_cases hp : a = k
    · subst hp
      simp [alookup] at h
      simp [amodify, alookup, h]
    · simp [alookup, hp] at h
      simp [amodify, alookup, hp, ih h]

theorem alookup_amodify_ne {α β : Type} [DecidableEq α] (l : List (α × β)) (k k2 : α)
    (f : β → β) (h : k2 ≠ k) : alookup (amodify l k f) k2 = alookup l k2 := by
  have hk : ¬ k = k2 := Ne.symm h
  induction l with
  | nil => simp [amodify]
  | cons p rest ih =>
    obtain ⟨a, b⟩ := p
    by_cases hp : a = k
    · subst hp
      simp [amodify, alookup, hk]
    · simp [amodify, alookup, hp, ih]

theorem amodify_aset {α β : Type} [DecidableEq α] (l : List (α × β)) (k : α) (v : β)
    (f : β → β) : amodify (aset l k v) k f = aset l k (f v) := by
  induction l with
  | nil => simp [aset, amodify]
  | cons p rest ih =>
    obtain ⟨a, b⟩ := p
    by_cases hp : a = k
    · subst hp
      simp [aset, amodify]
    · simp [aset, amodify, hp, ih]

theorem alookup_mem {α β : Type} [DecidableEq α] (l : List (α × β)) (k : α) (v : β)
    (h : alookup l k = some v) : (k, v) ∈ l := by
  induction l with
  | nil => simp [alookup] at h
  | cons p rest ih =>
    obtain ⟨a, b⟩ := p
    by_cases hp : a = k
    · subst hp
      simp [alookup] at h
      subst h
      exact List.mem_cons_self _ _
    · simp [alookup, hp] at h
      exact List.mem_cons_of_mem _ (ih h)

theorem mem_aset {α β : Type} [DecidableEq α] (l : List (α × β)) (k : α) (v : β)
    (p : α × β) (h : p ∈ aset l k v) : p ∈ l ∨ p = (k, v) := by
  induction l with
  | nil =>
    simp [aset] at h
    right; exact h
  | cons q rest ih =>
    obtain ⟨a, b⟩ := q
    by_cases hq : a = k
    · subst hq
      simp [aset] at h
      rcases h with h | h
      · right; exact h
      · left; exact List.mem_cons_of_mem _ h
    · simp [aset, hq] at h
      rcases h with h | h
      · left; rw [h]; exact List.mem_cons_self _ _
      · rcases ih h with h2 | h2
        · left; exact List.mem_cons_of_mem _ h2
        · right; exact h2

theorem mem_amodify {α β : Type} [DecidableEq α] (l : List (α × β)) (k : α) (f : β → β)
    (p : α × β) (h : p ∈ amodify l k f) : p ∈ l ∨ ∃ v, (k, v) ∈ l ∧ p = (k, f v) := by
  induction l with
  | nil => simp [amodify] at h
  | cons q rest ih =>
    obtain ⟨a, b⟩ := q
    by_cases hq : a = k
    · subst hq
      simp [amodify] at h
      rcases h with h | h
      · right
        exact ⟨b, List.mem_cons_self _ _, h⟩
      · left; exact List.mem_cons_of_mem _ h
    · simp [amodify, hq] at h
      rcases h with h | h
      · left; rw [h]; exact List.mem_cons_self _ _
      · rcases ih h with h2 | h2
        · left; exact List.mem_cons_of_mem _ h2
        · right
          obtain ⟨v, hv1, hv2⟩ := h2
          exact ⟨v, List.mem_cons_of_mem _ hv1, hv2⟩

theorem mem_lmodify {α : Type} (l : List α) (i : Nat) (f : α → α) (a : α)
    (h : a ∈ lmodify l i f) : a ∈ l ∨ ∃ b, l.get? i = some b ∧ a = f b := by
  induction l generalizing i with
  | nil => simp [lmodify] at h
  | cons x rest ih =>
    cases i with
    | zero =>
      simp [lmodify] at h
      rcases h with h | h
      · right; exact ⟨x, rfl, h⟩
      · left; exact List.mem_cons_of_mem _ h
    | succ n =>
      simp [lmodify] at h
      rcases h with h | h
      · left; rw [h]; exact List.mem_cons_self _ _
      · rcases ih n h with h2 | h2
        · left; exact List.mem_cons_of_mem _ h2
        · right
          obtain ⟨b, hb1, hb2⟩ := h2
          exact ⟨b, hb1, hb2⟩

theorem lmodify_get_self {α : Type} (l : List α) (i : Nat) (f : α → α) (b : α)
    (h : l.get? i = some b) : (lmodify l i f).get? i = some (f b) := by
  induction l generalizing i with
  | nil => exact absurd h (by simp)
  | cons x rest ih =>
    cases i with
    | zero =>
      have hx : some x = some b := h
      cases hx
      rfl
    | succ n =>
      have h2 : rest.get? n = some b := h
      exact ih n h2

theorem dinsert_of_not_mem {α : Type} [DecidableEq α] (l : List α) (a : α) (h : a ∉ l) :
    dinsert l a = l ++ [a] := by
  simp [dinsert, h]

theorem getRoom_setRoom_self (w : World) (rid : Nat) (r : Room) :
    (w.setRoom rid r).getRoom rid = some r :=
  alookup_aset_self w.rooms rid r

theorem getRoom_setRoom_ne (w : World) (rid rid2 : Nat) (r : Room) (h : rid2 ≠ rid) :
    (w.setRoom rid r).getRoom rid2 = w.getRoom rid2 :=
  alookup_aset_ne w.rooms rid rid2 r h

theorem getRoom_modifyRoom_self (w : World) (rid : Nat) (f : Room → Room) (r : Room)
    (h : w.getRoom rid = some r) : (w.modifyRoom rid f).getRoom rid = some (f r) :=
  alookup_amodify_self w.rooms rid f r h

theorem getRoom_modifyRoom_ne (w : World) (rid rid2 : Nat) (f : Room → Room) (h : rid2 ≠ rid) :
    (w.modifyRoom rid f).getRoom rid2 = w.getRoom rid2 :=
  alookup_amodify_ne w.rooms rid rid2 f h

theorem getMob_setMob_self (w : World) (mid : Nat) (m : Mob) :
    (w.setMob mid m).getMob mid = some m :=
  alookup_aset_self w.mobHeap mid m

theorem getMob_setMob_ne (w : World) (mid mid2 : Nat) (m : Mob) (h : mid2 ≠ mid) :
    (w.setMob mid m).getMob mid2 = w.getMob mid2 :=
  alookup_aset_ne w.mobHeap mid mid2 m h

theorem getMob_modifyMob_self (w : World) (mid : Nat) (f : Mob → Mob) (m : Mob)
    (h : w.getMob mid = some m) : (w.modifyMob mid f).getMob mid = some (f m) :=
  alookup_amodify_self w.mobHeap mid f m h

theorem getMob_modifyMob_ne (w : World) (mid mid2 : Nat) (f : Mob → Mob) (h : mid2 ≠ mid) :
    (w.modifyMob mid f).getMob mid2 = w.getMob mid2 :=
  alookup_amodify_ne w.mobHeap mid mid2 f h

theorem getPlayer_setPlayer_self (w : World) (pname : String) (p : Player) :
    (w.setPlayer pname p).getPlayer pname = some p :=
  alookup_aset_self w.playerHeap pname p

theorem getPlayer_modifyPlayer_self (w : World) (pname : String) (f : Player → Player)
    (p : Player) (h : w.getPlayer pname = some p) :
    (w.modifyPlayer pname f).getPlayer pname = some (f p) :=
  alookup_amodify_self w.playerHeap pname f p h

theorem getPlayer_modifyPlayer_ne (w : World) (pname pname2 : String) (f : Player → Player)
    (h : pname2 ≠ pname) : (w.modifyPlayer pname f).getPlayer pname2 = w.getPlayer pname2 :=
  alookup_amodify_ne w.playerHeap pname pname2 f h

theorem getRoom_modifyPlayer (w : World) (pname : String) (f : Player → Player) (rid : Nat) :
    (w.modifyPlayer pname f).getRoom rid = w.getRoom rid := rfl

theorem getRoom_setPlayer (w : World) (pname : String) (p : Player) (rid : Nat) :
    (w.setPlayer pname p).getRoom rid = w.getRoom rid := rfl

theorem getRoom_setMob (w : World) (mid : Nat) (m : Mob) (rid : Nat) :
    (w.setMob mid m).getRoom rid = w.getRoom rid := rfl

theorem getRoom_modifyMob (w : World) (mid : Nat) (f : Mob → Mob) (rid : Nat) :
    (w.modifyMob mid f).getRoom rid = w.getRoom rid := rfl

theorem getRoom_send (w : World) (pname t : String) (rid : Nat) :
    (w.send pname t).getRoom rid = w.getRoom rid := rfl

theorem getMob_setRoom (w : World) (rid : Nat) (r : Room) (mid : Nat) :
    (w.setRoom rid r).getMob mid = w.getMob mid := rfl

theorem getMob_modifyRoom (w : World) (rid : Nat) (f : Room → Room) (mid : Nat) :
    (w.modifyRoom rid f).getMob mid = w.getMob mid := rfl

theorem getMob_setPlayer (w : World) (pname : String) (p : Player) (mid : Nat) :
    (w.setPlayer pname p).getMob mid = w.getMob mid := rfl

theorem getMob_modifyPlayer (w : World) (pname : String) (f : Player → Player) (mid : Nat) :
    (w.modifyPlayer pname f).getMob mid = w.getMob mid := rfl

theorem getMob_send (w : World) (pname t : String) (mid : Nat) :
    (w.send pname t).getMob mid = w.getMob mid := rfl

theorem getPlayer_setRoom (w : World) (rid : Nat) (r : Room) (pname : String) :
    (w.setRoom rid r).getPlayer pname = w.getPlayer pname := rfl

theorem getPlayer_modifyRoom (w : World) (rid : Nat) (f : Room → Room) (pname : String) :
    (w.modifyRoom rid f).getPlayer pname = w.getPlayer pname := rfl

theorem getPlayer_setMob (w : World) (mid : Nat) (m : Mob) (pname : String) :
    (w.setMob mid m).getPlayer pname = w.getPlayer pname := rfl

theorem getPlayer_modifyMob (w : World) (mid : Nat) (f : Mob → Mob) (pname : String) :
    (w.modifyMob mid f).getPlayer pname = w.getPlayer pname := rfl

theorem getPlayer_send (w : World) (pname2 t : String) (pname : String) :
    (w.send pname2 t).getPlayer pname = w.getPlayer pname := rfl

theorem broadcast_rooms (w : World) (rid : Nat) (t : String) :
    (Room.broadcast w rid t).rooms = w.rooms := by
  unfold Room.broadcast
  cases w.getRoom rid <;> rfl

theorem broadcast_mobHeap (w : World) (rid : Nat) (t : String) :
    (Room.broadcast w rid t).mobHeap = w.mobHeap := by
  unfold Room.broadcast
  cases w.getRoom rid <;> rfl

theorem broadcast_playerHeap (w : World) (rid : Nat) (t : String) :
    (Room.broadcast w rid t).playerHeap = w.playerHeap := by
  unfold Room.broadcast
  cases w.getRoom rid <;> rfl

theorem broadcast_getRoom (w : World) (rid rid2 : Nat) (t : String) :
    (Room.broadcast w rid t).getRoom rid2 = w.getRoom rid2 := by
  unfold World.getRoom
  rw [broadcast_rooms]

theorem broadcast_getMob (w : World) (rid : Nat) (t : String) (mid : Nat) :
    (Room.broadcast w rid t).getMob mid = w.getMob mid := by
  unfold World.getMob
  rw [broadcast_mobHeap]

theorem broadcast_getPlayer (w : World) (rid : Nat) (t : String) (pname : String) :
    (Room.broadcast w rid t).getPlayer pname = w.getPlayer pname := by
  unfold World.getPlayer
  rw [broadcast_playerHeap]

theorem broadcast_log (w : World) (rid : Nat) (t : String) (r : Room)
    (h : w.getRoom rid = some r) :
    (Room.broadcast w rid t).log = w.log ++ r.players.map (fun pname => (pname, t)) := by
  unfold Room.broadcast
  rw [h]

theorem format_room_heap_eq (w1 w2 : World) (r : Room) (h : w1.mobHeap = w2.mobHeap) :
    Room.format_room w1 r = Room.format_room w2 r := by
  unfold Room.format_room Room.format_mobs World.getMob
  rw [h]

theorem random_exit_of_pos (r : Room) (seed : Nat) (h : 0 < r.exits.length) :
    Room.random_exit r seed = (r.exits.map Prod.fst).get? (seed % r.exits.length) := by
  unfold Room.random_exit
  have hlen : (r.exits.map (fun p => p.1)).length = r.exits.length := by simp
  by_cases h1 : (r.exits.map (fun p => p.1)).length = 0
  · omega
  · simp only [h1, if_false]
    by_cases h2 : (r.exits.map (fun p => p.1)).length = 1
    · have hone : r.exits.length = 1 := by omega
      simp only [h2, if_true, hone, Nat.mod_one]
    · simp only [h2, if_false]

theorem random_exit_isSome (r : Room) (seed : Nat) (h : 0 < r.exits.length) :
    ∃ dir, (r.exits.map Prod.fst).get? (seed % r.exits.length) = some dir := by
  have hidx : seed % r.exits.length < (r.exits.map Prod.fst).length := by
    have := Nat.mod_lt seed h
    simpa using this
  exact ⟨_, List.get?_eq_get hidx⟩

theorem add_mob_eq (w : World) (rid : Nat) (mob : Mob) (r : Room)
    (hr : w.getRoom rid = some r) :
    Room.add_mob w rid mob = wok
      { rooms := aset w.rooms rid { r with mobs := dinsert r.mobs mob.id },
        playerHeap := w.playerHeap,
        mobHeap := aset w.mobHeap mob.id { mob with room := some rid },
        log := w.log ++ r.players.map (fun q => (q, Mob.format_enter_text mob)) } := by
  have hg : (((w.setRoom rid { r with mobs := dinsert r.mobs mob.id }).setMob mob.id
      mob).modifyMob mob.id (fun m => { m with room := some rid })).getRoom rid
      = some { r with mobs := dinsert r.mobs mob.id } :=
    getRoom_setRoom_self w rid { r with mobs := dinsert r.mobs mob.id }
  simp only [Room.add_mob, hr]
  simp only [Room.broadcast, hg]
  simp only [World.setRoom, World.setMob, World.modifyMob]
  rw [amodify_aset]

theorem spawnGo_locked (rid : Nat) (o : Oracle) (w : World) (is : List Nat) (r : Room)
    (hr : w.getRoom rid = some r) (hlock : 0 < r.spawn_lock) :
    Room.spawnGo rid o w is = wok w := by
  cases is with
  | nil => rfl
  | cons i rest => simp only [Room.spawnGo, hr, if_pos hlock]

theorem spawnGo_skip_prefix (rid : Nat) (o : Oracle) (w : World) (r : Room)
    (hr : w.getRoom rid = some r) (hlock : ¬ 0 < r.spawn_lock) :
    ∀ (pre is2 : List Nat),
      (∀ j ∈ pre, ∀ e, r.spawns.get? j = some e → ¬ e.current < e.desired) →
      Room.spawnGo rid o w (pre ++ is2) = Room.spawnGo rid o w is2 := by
  intro pre
  induction pre with
  | nil => intro is2 _; rfl
  | cons j rest ih =>
    intro is2 hall
    have hj := hall j (List.mem_cons_self _ _)
    simp only [List.cons_append, Room.spawnGo, hr, if_neg hlock]
    cases hg : r.spawns.get? j with
    | none => exact ih is2 (fun j2 hj2 => hall j2 (List.mem_cons_of_mem _ hj2))
    | some e =>
      simp only [if_neg (hj e hg)]
      exact ih is2 (fun j2 hj2 => hall j2 (List.mem_cons_of_mem _ hj2))

/-! ### C1: NPC death finalization -/

/-- C1: evaluation of the death path at a failing input.  A spawned rat
(id 7, health 10, one registered dec callback) takes 11 damage: its
health drops below zero, Mob.die runs, the spawn entry's current count
is decremented exactly once (1 to 0) and the mob's room handle is
cleared, but the mob is NOT removed from room 2's mob map, contradicting
the claim that the dead NPC is removed from its room's NPC map. -/
theorem mob_die_leaves_corpse_in_room_map :
    (Mob.take_damage w_c1 7 11).okB = true ∧
    ((Mob.take_damage w_c1 7 11).state.getRoom 2).map Room.mobs = some [7] ∧
    ((Mob.take_damage w_c1 7 11).state.getRoom 2).map
      (fun r => r.spawns.map SpawnedMobs.current) = some [0] ∧
    ((Mob.take_damage w_c1 7 11).state.getMob 7).map Mob.room = some none := by
  refine ⟨by decide, by decide, by decide, by decide⟩

/-! ### C3: in_combat is never set -/

/-- C3: evaluation at a failing input.  Player.start_combat succeeds on
a present rat (a Combat session targeting it is created), yet the rat's
in_combat flag stays false — nothing in the codebase ever sets it true —
and on the next tick the rat wanders out of the room (to room 1), so its
autonomous movement is not suspended during the session. -/
theorem start_combat_does_not_set_in_combat :
    ((Player.start_combat w_c3 "alice" "a rat").state.getPlayer "alice").map Player.combat
      = some (some { target := 7, player_initiative := true }) ∧
    ((Player.start_combat w_c3 "alice" "a rat").state.getMob 7).map Mob.in_combat
      = some false ∧
    ((Mud.update (Player.start_combat w_c3 "alice" "a rat").state oZero).state.getMob 7).map
      Mob.room = some (some 1) := by
  refine ⟨by decide, by decide, by decide⟩

/-! ### C5: spawn pass, counterexample part -/

/-- C5 counterexample: with a zero-length spawn cooldown (the Room field
spawn_cooldown is data, not a constant), a single Room.spawn call fires
BOTH eligible rules, spawning two NPCs in one room in one tick — the
claim's "exactly the first rule in list order ... so at most one NPC is
spawned per room per tick" is false as stated for every call. -/
theorem spawn_zero_cooldown_spawns_twice :
    ((Room.spawn w_c5 5 oZero).state.getRoom 5).map Room.mobs = some [100, 101] ∧
    ((Room.spawn w_c5 5 oZero).state.getRoom 5).map
      (fun r => r.spawns.map SpawnedMobs.current) = some [1, 1] := by
  refine ⟨by decide, by decide⟩

theorem spawnGo_fire (rid : Nat) (o : Oracle) (w : World) (r : Room) (i : Nat)
    (entry : SpawnedMobs) (rest : List Nat)
    (hr : w.getRoom rid = some r) (hlock0 : r.spawn_lock = 0) (hcd : 0 < r.spawn_cooldown)
    (hget : r.spawns.get? i = some entry) (helig : entry.current < entry.desired) :
    Room.spawnGo rid o w (i :: rest) = wok
      { rooms := aset w.rooms rid
          { r with
            mobs := dinsert r.mobs (o.fresh rid i),
            spawns := lmodify r.spawns i (fun e => { e with current := e.current + 1 }),
            spawn_lock := r.spawn_lock + r.spawn_cooldown },
        playerHeap := w.playerHeap,
        mobHeap := aset w.mobHeap (o.fresh rid i)
          { entry.mob with
            id := o.fresh rid i,
            room := some rid,
            on_death := [(rid, i)] },
        log := w.log ++ r.players.map (fun q =>
          (q, Mob.format_enter_text { entry.mob with
            id := o.fresh rid i,
            on_death := [(rid, i)] })) } := by
  have hlockNeg : ¬ 0 < r.spawn_lock := by omega
  simp only [Room.spawnGo, hr, if_neg hlockNeg, hget, if_pos helig]
  simp only [add_mob_eq w rid { entry.mob with id := o.fresh rid i, on_death := [(rid, i)] } r hr]
  simp only [wok]
  simp only [World.modifyRoom]
  rw [amodify_aset, amodify_aset]
  have hg3 : World.getRoom
      { rooms := aset w.rooms rid
          { r with
            mobs := dinsert r.mobs (o.fresh rid i),
            spawns := lmodify r.spawns i (fun e => { e with current := e.current + 1 }),
            spawn_lock := r.spawn_lock + r.spawn_cooldown },
        playerHeap := w.playerHeap,
        mobHeap := aset w.mobHeap (o.fresh rid i)
          { entry.mob with
            id := o.fresh rid i,
            room := some rid,
            on_death := [(rid, i)] },
        log := w.log ++ r.players.map (fun q =>
          (q, Mob.format_enter_text { entry.mob with
            id := o.fresh rid i,
            on_death := [(rid, i)] })) } rid
      = some
        { r with
          mobs := dinsert r.mobs (o.fresh rid i),
          spawns := lmodify r.spawns i (fun e => { e with current := e.current + 1 }),
          spawn_lock := r.spawn_lock + r.spawn_cooldown } :=
    alookup_aset_self w.rooms rid _
  rw [spawnGo_locked rid o _ rest _ hg3 (by
    show 0 < r.spawn_lock + r.spawn_cooldown
    omega)]
  rfl

/-- C5 amended: full characterization of one Room.spawn call whose room
has a positive spawn_cooldown (every room in the repository uses the
default 10).  A positive spawn_lock aborts the pass with no rule
considered and no NPC created.  With the lock at zero, if no rule has
current < desired nothing happens; otherwise exactly the first such rule
(in list order) spawns one copy of its template with a fresh id and a
single death callback for that entry, the room gains exactly that one
mob, the entry current count is incremented, the lock is set to the
cooldown, and nothing else in the world changes, so at most one NPC
spawns per room per call. -/
theorem spawn_characterization (w : World) (rid : Nat) (o : Oracle) (r : Room)
    (hr : w.getRoom rid = some r) (hcd : 0 < r.spawn_cooldown) :
    (0 < r.spawn_lock → Room.spawn w rid o = wok w) ∧
    (r.spawn_lock = 0 →
      ((∀ e ∈ r.spawns, ¬ e.current < e.desired) → Room.spawn w rid o = wok w) ∧
      (∀ i entry, r.spawns.get? i = some entry → entry.current < entry.desired →
        (∀ j, j < i → ∀ e2, r.spawns.get? j = some e2 → ¬ e2.current < e2.desired) →
        o.fresh rid i ∉ r.mobs →
        ∃ w4, Room.spawn w rid o = wok w4 ∧
          w4.getRoom rid = some
            { r with
              mobs := r.mobs ++ [o.fresh rid i],
              spawns := lmodify r.spawns i (fun e => { e with current := e.current + 1 }),
              spawn_lock := r.spawn_cooldown } ∧
          w4.getMob (o.fresh rid i) = some
            { entry.mob with
              id := o.fresh rid i,
              room := some rid,
              on_death := [(rid, i)] } ∧
          (∀ rid2, rid2 ≠ rid → w4.getRoom rid2 = w.getRoom rid2) ∧
          w4.playerHeap = w.playerHeap ∧
          (∀ mid2, mid2 ≠ o.fresh rid i → w4.getMob mid2 = w.getMob mid2) ∧
          w4.log = w.log ++ r.players.map (fun q =>
            (q, Mob.format_enter_text { entry.mob with
              id := o.fresh rid i,
              on_death := [(rid, i)] })))) := by
  constructor
  · intro hpos
    simp only [Room.spawn, hr]
    exact spawnGo_locked rid o w _ r hr hpos
  · intro hlock0
    have hlockNeg : ¬ 0 < r.spawn_lock := by omega
    constructor
    · intro hall
      simp only [Room.spawn, hr]
      have h2 := spawnGo_skip_prefix rid o w r hr hlockNeg (List.range r.spawns.length) []
        (fun j _ e he => hall e (List.get?_mem he))
      rw [List.append_nil] at h2
      rw [h2]
      rfl
    · intro i entry hget helig hfirst hfresh
      have hi : i < r.spawns.length := by
        rcases List.get?_eq_some.mp hget with ⟨h, _⟩
        exact h
      have hsplit : List.range r.spawns.length
          = List.range' 0 i ++ (i :: List.range' (i + 1) (r.spawns.length - i - 1)) := by
        have hn : (r.spawns.length - i) + i = r.spawns.length := by omega
        have h1 : List.range r.spawns.length = List.range' 0 ((r.spawns.length - i) + i) := by
          rw [hn]
          exact List.range_eq_range' _
        rw [h1, ← List.range'_append_1 0 i (r.spawns.length - i)]
        have h3 : r.spawns.length - i = (r.spawns.length - i - 1) + 1 := by omega
        rw [h3, List.range'_succ]
        simp
      have hpre : ∀ j ∈ List.range' 0 i, ∀ e, r.spawns.get? j = some e
          → ¬ e.current < e.desired := by
        intro j hj e he
        have hjlt : j < i := by
          have := (List.mem_range'_1.mp hj).2
          omega
        exact hfirst j hjlt e he
      have hspawn : Room.spawn w rid o
          = Room.spawnGo rid o w (i :: List.range' (i + 1) (r.spawns.length - i - 1)) := by
        simp only [Room.spawn, hr]
        rw [hsplit]
        exact spawnGo_skip_prefix rid o w r hr hlockNeg (List.range' 0 i) _ hpre
      have hfire := spawnGo_fire rid o w r i entry
        (List.range' (i + 1) (r.spawns.length - i - 1)) hr hlock0 hcd hget helig
      rw [hfire] at hspawn
      refine ⟨_, hspawn, ?_, ?_, ?_, ?_, ?_, ?_⟩
      · show alookup (aset w.rooms rid _) rid = _
        rw [alookup_aset_self]
        rw [dinsert_of_not_mem _ _ hfresh, hlock0, zero_add]
      · show alookup (aset w.mobHeap (o.fresh rid i) _) (o.fresh rid i) = _
        rw [alookup_aset_self]
      · intro rid2 hne
        show alookup (aset w.rooms rid _) rid2 = _
        rw [alookup_aset_ne _ _ _ _ hne]
        rfl
      · rfl
      · intro mid2 hne
        show alookup (aset w.mobHeap (o.fresh rid i) _) mid2 = _
        rw [alookup_aset_ne _ _ _ _ hne]
        rfl
      · rfl

/-- C5 witness: the first tick on the initial world: room 2 (lock 0,
cooldown 10, one entry 0 < 2) spawns exactly one rat with id fresh(2,0)
and death callback (2,0), sets current to 1 and the lock to 10. -/
theorem spawn_characterization_witness :
    ∃ w4, Room.spawn mudInit 2 oZero = wok w4 ∧
      w4.getRoom 2 = some { Room2 with
        mobs := Room2.mobs ++ [oZero.fresh 2 0],
        spawns := lmodify Room2.spawns 0 (fun e => { e with current := e.current + 1 }),
        spawn_lock := Room2.spawn_cooldown } ∧
      w4.getMob (oZero.fresh 2 0)
        = some { mob1 with id := oZero.fresh 2 0, on_death := [(2, 0)], room := some 2 } ∧
      (∀ rid2, rid2 ≠ 2 → w4.getRoom rid2 = mudInit.getRoom rid2) ∧
      w4.playerHeap = mudInit.playerHeap ∧
      (∀ mid2, mid2 ≠ oZero.fresh 2 0 → w4.getMob mid2 = mudInit.getMob mid2) ∧
      w4.log = mudInit.log ++ Room2.players.map (fun q =>
        (q, Mob.format_enter_text { mob1 with id := oZero.fresh 2 0, on_death := [(2, 0)] })) :=
  (spawn_characterization mudInit 2 oZero Room2 (by decide) (by decide)).2 (by decide)
    |>.2 0 { mob := mob1, desired := 2 } (by decide) (by decide)
    (fun j hj e2 he => absurd hj (by omega)) (by decide)

/-! ### C4: spawn-count invariant machinery -/

theorem spawnInv_rooms_eq (w w2 : World) (h : w2.rooms = w.rooms) (hw : spawnInv w) :
    spawnInv w2 := by
  intro p hp
  exact hw p (h ▸ hp)

theorem spawnInv_getRoom (w : World) (rid : Nat) (r : Room) (hw : spawnInv w)
    (hr : w.getRoom rid = some r) : ∀ e ∈ r.spawns, e.current ≤ e.desired :=
  hw (rid, r) (alookup_mem _ _ _ hr)

theorem spawnInv_of_rooms_aset (w2 w : World) (rid : Nat) (r2 : Room)
    (h : w2.rooms = aset w.rooms rid r2) (hw : spawnInv w)
    (hr2 : ∀ e ∈ r2.spawns, e.current ≤ e.desired) : spawnInv w2 := by
  intro p hp e he
  rw [h] at hp
  rcases mem_aset w.rooms rid r2 p hp with h2 | h2
  · exact hw p h2 e he
  · subst h2
    exact hr2 e he

theorem spawnInv_of_rooms_amodify (w2 w : World) (rid : Nat) (f : Room → Room)
    (h : w2.rooms = amodify w.rooms rid f) (hw : spawnInv w)
    (hf : ∀ r, (∀ e ∈ r.spawns, e.current ≤ e.desired)
      → ∀ e ∈ (f r).spawns, e.current ≤ e.desired) : spawnInv w2 := by
  intro p hp e he
  rw [h] at hp
  rcases mem_amodify w.rooms rid f p hp with h2 | ⟨v, hv, h2⟩
  · exact hw p h2 e he
  · subst h2
    exact hf v (fun e2 he2 => hw (rid, v) hv e2 he2) e he

theorem spawnInv_send (w : World) (pname t : String) (hw : spawnInv w) :
    spawnInv (w.send pname t) := spawnInv_rooms_eq w _ rfl hw

theorem spawnInv_broadcast (w : World) (rid : Nat) (t : String) (hw : spawnInv w) :
    spawnInv (Room.broadcast w rid t) := spawnInv_rooms_eq w _ (broadcast_rooms w rid t) hw

theorem spawnInv_runOnDeath (w : World) (cb : Nat × Nat) (hw : spawnInv w) :
    spawnInv (runOnDeath w cb) := by
  apply spawnInv_of_rooms_amodify _ w cb.1 _ rfl hw
  intro r hr e he
  rcases mem_lmodify r.spawns cb.2 _ e he with h | ⟨b, hb, h⟩
  · exact hr e h
  · subst h
    have := hr b (List.get?_mem hb)
    show b.current - 1 ≤ b.desired
    omega

theorem spawnInv_foldl_onDeath (l : List (Nat × Nat)) :
    ∀ w, spawnInv w → spawnInv (l.foldl runOnDeath w) := by
  induction l with
  | nil => intro w hw; exact hw
  | cons cb rest ih => intro w hw; exact ih _ (spawnInv_runOnDeath w cb hw)

theorem spawnInv_seq (x : ExcM) (f : World → ExcM)
    (hx : spawnInv x.state)
    (hf : ∀ w1, x = Except.ok w1 → spawnInv (f w1).state) :
    spawnInv (ExcM.state (match x with
      | Except.error e => Except.error e
      | Except.ok w1 => f w1)) := by
  cases x with
  | error e => exact hx
  | ok w1 => exact hf w1 rfl

theorem spawnInv_die (w : World) (mid : Nat) (hw : spawnInv w) :
    spawnInv (Mob.die w mid).state := by
  cases hm : w.getMob mid with
  | none =>
    simp only [Mob.die, hm]
    exact hw
  | some m =>
    cases hroom : m.room with
    | none =>
      simp only [Mob.die, hm, hroom]
      exact hw
    | some rid =>
      simp only [Mob.die, hm, hroom]
      apply spawnInv_rooms_eq (m.on_death.foldl runOnDeath
        (Room.broadcast w rid (m.name ++ " dies."))) _ rfl
      exact spawnInv_foldl_onDeath _ _ (spawnInv_broadcast w rid _ hw)

theorem spawnInv_mob_take_damage (w : World) (mid : Nat) (dmg : Int) (hw : spawnInv w) :
    spawnInv (Mob.take_damage w mid dmg).state := by
  cases hm : w.getMob mid with
  | none =>
    simp only [Mob.take_damage, hm]
    exact hw
  | some m =>
    simp only [Mob.take_damage, hm]
    by_cases hlt : m.health - dmg < 0
    · simp only [if_pos hlt]
      exact spawnInv_die _ mid (spawnInv_rooms_eq w _ rfl hw)
    · simp only [if_neg hlt]
      exact spawnInv_rooms_eq w _ rfl hw

theorem spawnInv_player_die (w : World) (pname : String) (hw : spawnInv w) :
    spawnInv (Player.die w pname).state := by
  cases hp : w.getPlayer pname with
  | none =>
    simp only [Player.die, hp]
    exact hw
  | some p =>
    cases hc : p.combat with
    | none =>
      simp only [Player.die, hp, hc]
      exact spawnInv_rooms_eq w _ rfl hw
    | some c =>
      simp only [Player.die, hp, hc]
      exact spawnInv_rooms_eq w _ rfl hw

theorem spawnInv_player_take_damage (w : World) (pname : String) (dmg : Int)
    (hw : spawnInv w) : spawnInv (Player.take_damage w pname dmg).state := by
  cases hp : w.getPlayer pname with
  | none =>
    simp only [Player.take_damage, hp]
    exact hw
  | some p =>
    simp only [Player.take_damage, hp]
    by_cases hlt : p.health - dmg < 0
    · simp only [if_pos hlt]
      exact spawnInv_player_die _ pname (spawnInv_rooms_eq w _ rfl hw)
    · simp only [if_neg hlt]
      exact spawnInv_rooms_eq w _ rfl hw

theorem spawnInv_attack (w : World) (pname : String) (mid : Nat) (o : Oracle)
    (hw : spawnInv w) : spawnInv (Player.attack w pname mid o).state := by
  cases hp : w.getPlayer pname with
  | none =>
    simp only [Player.attack, hp]
    exact hw
  | some p =>
    cases hc : p.combat with
    | none =>
      simp only [Player.attack, hp, hc]
      exact hw
    | some c =>
      cases hm : w.getMob mid with
      | none =>
        simp only [Player.attack, hp, hc, hm]
        exact hw
      | some m =>
        simp only [Player.attack, hp, hc, hm]
        by_cases hini : c.player_initiative = true
        · simp only [if_pos hini]
          split
          next e htd =>
            rw [← htd]
            exact spawnInv_mob_take_damage _ _ _ (spawnInv_send w _ _ hw)
          next w2 htd =>
            refine spawnInv_player_take_damage _ pname _ (spawnInv_send w2 _ _ ?_)
            show spawnInv (ExcM.state (Except.ok w2 : ExcM))
            rw [← htd]
            exact spawnInv_mob_take_damage _ _ _ (spawnInv_send w _ _ hw)
        · simp only [if_neg hini]
          split
          next e htd =>
            rw [← htd]
            exact spawnInv_player_take_damage _ _ _ (spawnInv_send w _ _ hw)
          next w2 htd =>
            refine spawnInv_mob_take_damage _ mid _ (spawnInv_send w2 _ _ ?_)
            show spawnInv (ExcM.state (Except.ok w2 : ExcM))
            rw [← htd]
            exact spawnInv_player_take_damage _ _ _ (spawnInv_send w _ _ hw)

theorem spawnInv_player_update (w : World) (pname : String) (o : Oracle)
    (hw : spawnInv w) : spawnInv (Player.update w pname o).state := by
  cases hp : w.getPlayer pname with
  | none =>
    simp only [Player.update, hp]
    exact hw
  | some p =>
    cases hc : p.combat with
    | none =>
      simp only [Player.update, hp, hc]
      exact hw
    | some c =>
      simp only [Player.update, hp, hc]
      exact spawnInv_attack w pname c.target o hw

theorem spawnInv_enter (w : World) (rid : Nat) (pname : String) (hw : spawnInv w) :
    spawnInv (Room.enter w rid pname).state := by
  cases hr : w.getRoom rid with
  | none =>
    simp only [Room.enter, hr]
    exact hw
  | some r =>
    simp only [Room.enter, hr]
    have hw3 : spawnInv (((Room.broadcast w rid (pname ++ " enters.")).setRoom rid
        { r with players := dinsert r.players pname }).modifyPlayer pname
        (fun p => { p with room := some rid })) := by
      apply spawnInv_rooms_eq ((Room.broadcast w rid (pname ++ " enters.")).setRoom rid
        { r with players := dinsert r.players pname }) _ rfl
      apply spawnInv_of_rooms_aset _ (Room.broadcast w rid (pname ++ " enters.")) rid _ rfl
        (spawnInv_broadcast w rid _ hw)
      exact spawnInv_getRoom w rid r hw hr
    split
    · exact hw3
    · exact spawnInv_send _ _ _ hw3

theorem spawnInv_leave (w : World) (rid : Nat) (pname : String) (dir : Direction)
    (hw : spawnInv w) : spawnInv (Room.leave w rid pname dir).state := by
  cases hr : w.getRoom rid with
  | none =>
    simp only [Room.leave, hr]
    exact hw
  | some r =>
    simp only [Room.leave, hr]
    cases hd : alookup r.exits dir with
    | none => exact spawnInv_send _ _ _ hw
    | some nextId =>
      by_cases hmem : pname ∈ r.players
      · simp only [if_pos hmem]
        have hw1 : spawnInv (w.setRoom rid { r with players := derase r.players pname }) := by
          apply spawnInv_of_rooms_aset _ w rid _ rfl hw
          exact spawnInv_getRoom w rid r hw hr
        split
        · exact hw1
        · split
          next e hen =>
            rw [← hen]
            exact spawnInv_enter _ nextId pname hw1
          next w2 hen =>
            apply spawnInv_broadcast
            show spawnInv (ExcM.state (Except.ok w2 : ExcM))
            rw [← hen]
            exact spawnInv_enter _ nextId pname hw1
      · simp only [if_neg hmem]
        exact hw

theorem spawnInv_add_mob (w : World) (rid : Nat) (mob : Mob) (hw : spawnInv w) :
    spawnInv (Room.add_mob w rid mob).state := by
  cases hr : w.getRoom rid with
  | none =>
    simp only [Room.add_mob, hr]
    exact hw
  | some r =>
    simp only [Room.add_mob, hr]
    apply spawnInv_broadcast
    apply spawnInv_rooms_eq (w.setRoom rid { r with mobs := dinsert r.mobs mob.id }) _ rfl
    apply spawnInv_of_rooms_aset _ w rid _ rfl hw
    exact spawnInv_getRoom w rid r hw hr

theorem spawnInv_move_mob (w : World) (rid mid : Nat) (dir : Direction) (hw : spawnInv w) :
    spawnInv (Room.move_mob w rid mid dir).state := by
  cases hr : w.getRoom rid with
  | none =>
    simp only [Room.move_mob, hr]
    exact hw
  | some r =>
    cases hd : alookup r.exits dir with
    | none =>
      simp only [Room.move_mob, hr, hd]
      exact hw
    | some nextId =>
      cases hn : w.getRoom nextId with
      | none =>
        simp only [Room.move_mob, hr, hd, hn]
        exact hw
      | some rn =>
        have hw1 : spawnInv (w.setRoom rid { r with mobs := derase r.mobs mid }) := by
          apply spawnInv_of_rooms_aset _ w rid _ rfl hw
          exact spawnInv_getRoom w rid r hw hr
        cases hm2 : w.getMob mid with
        | none =>
          simp only [Room.move_mob, hr, hd, hn, getMob_setRoom, hm2]
          by_cases hmem : mid ∈ r.mobs
          · simp only [if_pos hmem]
            exact hw1
          · simp only [if_neg hmem]
            exact hw
        | some m =>
          simp only [Room.move_mob, hr, hd, hn, getMob_setRoom, hm2]
          by_cases hmem : mid ∈ r.mobs
          · simp only [if_pos hmem]
            split
            next e hadd =>
              rw [← hadd]
              exact spawnInv_add_mob _ nextId _ hw1
            next w2 hadd =>
              have hw2 : spawnInv w2 := by
                show spawnInv (ExcM.state (Except.ok w2 : ExcM))
                rw [← hadd]
                exact spawnInv_add_mob _ nextId _ hw1
              split
              · exact hw2
              · exact spawnInv_broadcast _ rid _ hw2
          · simp only [if_neg hmem]
            exact hw

theorem spawnInv_mob_update (w : World) (mid : Nat) (o : Oracle) (hw : spawnInv w) :
    spawnInv (Mob.update w mid o).state := by
  cases hm : w.getMob mid with
  | none =>
    simp only [Mob.update, hm]
    exact hw
  | some m =>
    cases hroom : m.room with
    | none =>
      simp only [Mob.update, hm, hroom]
      exact hw
    | some rid =>
      simp only [Mob.update, hm, hroom]
      by_cases hic : m.in_combat = true
      · simp only [if_pos hic]
        exact hw
      · simp only [if_neg hic]
        by_cases hlock : 0 < m.move_lock
        · simp only [if_pos hlock]
          exact spawnInv_rooms_eq w _ rfl hw
        · simp only [if_neg hlock]
          cases hr : w.getRoom rid with
          | none => exact hw
          | some r =>
            by_cases hcond : m.wanders = true ∧ 0 < r.exits.length
                ∧ o.move_roll mid ≤ m.move_chance
            · simp only [if_pos hcond]
              split
              · exact spawnInv_rooms_eq w _ rfl hw
              · exact spawnInv_move_mob _ rid mid _ (spawnInv_rooms_eq w _ rfl hw)
            · simp only [if_neg hcond]
              exact hw

theorem spawnInv_spawnGo (rid : Nat) (o : Oracle) :
    ∀ (is : List Nat) (w : World), spawnInv w → spawnInv (Room.spawnGo rid o w is).state := by
  intro is
  induction is with
  | nil => intro w hw; exact hw
  | cons i rest ih =>
    intro w hw
    cases hr : w.getRoom rid with
    | none =>
      simp only [Room.spawnGo, hr]
      exact hw
    | some r =>
      simp only [Room.spawnGo, hr]
      by_cases hlock : 0 < r.spawn_lock
      · simp only [if_pos hlock]
        exact hw
      · simp only [if_neg hlock]
        cases hg : r.spawns.get? i with
        | none => exact ih w hw
        | some entry =>
          by_cases helig : entry.current < entry.desired
          · simp only [if_pos helig]
            simp only [add_mob_eq w rid
              { entry.mob with id := o.fresh rid i, on_death := [(rid, i)] } r hr]
            simp only [wok]
            simp only [World.modifyRoom]
            rw [amodify_aset, amodify_aset]
            apply ih
            apply spawnInv_of_rooms_aset _ w rid _ rfl hw
            intro e he
            rcases mem_lmodify r.spawns i _ e he with h | ⟨b, hb, h⟩
            · exact spawnInv_getRoom w rid r hw hr e h
            · subst h
              have hbe : b = entry := by
                rw [hb] at hg
                exact Option.some.inj hg
              subst hbe
              show b.current + 1 ≤ b.desired
              omega
          · simp only [if_neg helig]
            exact ih w hw

theorem spawnInv_spawn (w : World) (rid : Nat) (o : Oracle) (hw : spawnInv w) :
    spawnInv (Room.spawn w rid o).state := by
  cases hr : w.getRoom rid with
  | none =>
    simp only [Room.spawn, hr]
    exact hw
  | some r =>
    simp only [Room.spawn, hr]
    exact spawnInv_spawnGo rid o _ w hw

theorem spawnInv_foldE {α : Type} (f : World → α → ExcM)
    (hf : ∀ w a, spawnInv w → spawnInv (f w a).state) :
    ∀ (l : List α) (w : World), spawnInv w → spawnInv (foldE f w l).state := by
  intro l
  induction l with
  | nil => intro w hw; exact hw
  | cons a rest ih =>
    intro w hw
    simp only [foldE]
    split
    next e hx =>
      rw [← hx]
      exact hf w a hw
    next w1 hx =>
      apply ih
      show spawnInv (ExcM.state (Except.ok w1 : ExcM))
      rw [← hx]
      exact hf w a hw

theorem spawnInv_room_update (w : World) (rid : Nat) (o : Oracle) (hw : spawnInv w) :
    spawnInv (Room.update w rid o).state := by
  cases hr : w.getRoom rid with
  | none =>
    simp only [Room.update, hr]
    exact hw
  | some r =>
    simp only [Room.update, hr]
    have hw1 : spawnInv (if 0 < r.spawn_lock then
        World.modifyRoom w rid (fun r2 => { r2 with spawn_lock := r2.spawn_lock - 1 })
      else w) := by
      by_cases hl : 0 < r.spawn_lock
      · simp only [if_pos hl]
        apply spawnInv_of_rooms_amodify _ w rid _ rfl hw
        intro r2 hr2 e he
        exact hr2 e he
      · simp only [if_neg hl]
        exact hw
    split
    next e hsp =>
      rw [← hsp]
      exact spawnInv_spawn _ rid o hw1
    next w2 hsp =>
      have hw2 : spawnInv w2 := by
        show spawnInv (ExcM.state (Except.ok w2 : ExcM))
        rw [← hsp]
        exact spawnInv_spawn _ rid o hw1
      split
      · exact hw2
      · split
        next e hfp =>
          rw [← hfp]
          exact spawnInv_foldE _ (fun wa pname => spawnInv_player_update wa pname o) _ w2 hw2
        next w3 hfp =>
          have hw3 : spawnInv w3 := by
            show spawnInv (ExcM.state (Except.ok w3 : ExcM))
            rw [← hfp]
            exact spawnInv_foldE _ (fun wa pname => spawnInv_player_update wa pname o) _ w2 hw2
          split
          · exact hw3
          · exact spawnInv_foldE _ (fun wa mid => spawnInv_mob_update wa mid o) _ w3 hw3

theorem spawnInv_mud_update (w : World) (o : Oracle) (hw : spawnInv w) :
    spawnInv (Mud.update w o).state := by
  exact spawnInv_foldE _ (fun wa rid => spawnInv_room_update wa rid o) _ w hw

theorem spawnInv_add_player (w : World) (name : String) (hw : spawnInv w) :
    spawnInv (Mud.add_player w name).state := by
  apply spawnInv_enter
  apply spawnInv_send
  exact spawnInv_rooms_eq w _ rfl hw

theorem spawnInv_player_move (w : World) (pname : String) (dir : Direction)
    (hw : spawnInv w) : spawnInv (Player.move w pname dir).state := by
  cases hp : w.getPlayer pname with
  | none =>
    simp only [Player.move, hp]
    exact hw
  | some p =>
    cases hroom : p.room with
    | none =>
      simp only [Player.move, hp, hroom]
      exact hw
    | some rid =>
      simp only [Player.move, hp, hroom]
      exact spawnInv_leave w rid pname dir hw

theorem spawnInv_start_combat (w : World) (pname target : String) (hw : spawnInv w) :
    spawnInv (Player.start_combat w pname target).state := by
  cases hp : w.getPlayer pname with
  | none =>
    simp only [Player.start_combat, hp]
    exact hw
  | some p =>
    cases hroom : p.room with
    | none =>
      simp only [Player.start_combat, hp, hroom]
      exact hw
    | some rid =>
      cases hr : w.getRoom rid with
      | none =>
        simp only [Player.start_combat, hp, hroom, hr]
        exact hw
      | some r =>
        simp only [Player.start_combat, hp, hroom, hr]
        cases hgm : Room.get_mob w r target with
        | none => exact spawnInv_send _ _ _ hw
        | some mid => exact spawnInv_rooms_eq w _ rfl hw

theorem spawnInv_stepE (w : World) (e : Event) (hw : spawnInv w) :
    spawnInv (stepE w e).state := by
  cases e with
  | tick o => exact spawnInv_mud_update w o hw
  | join name => exact spawnInv_add_player w name hw
  | move name dir => exact spawnInv_player_move w name dir hw
  | kill name target => exact spawnInv_start_combat w name target hw

/-! ### C4: the invariant theorem -/

/-- C4: in every reachable state of the engine (initial world, then any
interleaving of ticks, joins, moves, and attack commands, including
states left behind by an uncaught exception), every spawn rule of every
room satisfies current <= desired: Room.spawn only increments current
under the current < desired guard, and the death callbacks only ever
decrement it. -/
theorem spawn_current_le_desired (w : World) (h : Reachable w) : spawnInv w := by
  induction h with
  | init =>
    show ∀ p ∈ mudInit.rooms, ∀ e ∈ p.2.spawns, e.current ≤ e.desired
    decide
  | step w e hr ih => exact spawnInv_stepE w e ih

/-- C4 witness: the invariant holds of the initial world. -/
theorem spawn_current_le_desired_witness : spawnInv mudInit :=
  spawn_current_le_desired mudInit Reachable.init

/-! ### C6: damage bounds machinery -/

theorem randrange_bounds (a b r : Nat) (h : a < b) :
    a ≤ randrange a b r ∧ randrange a b r < b := by
  unfold randrange
  have hm : r % (b - a) < b - a := Nat.mod_lt r (by omega)
  omega

theorem okB_eq_ok (x : ExcM) (h : x.okB = true) : x = Except.ok x.state := by
  cases x with
  | ok w => rfl
  | error w => simp [ExcM.okB] at h

theorem wok_inj (a b : World) (h : wok a = Except.ok b) : a = b := Except.ok.inj h

theorem wcrash_ne_ok (a b : World) : wcrash a ≠ Except.ok b := fun h => Except.noConfusion h

theorem amodify_of_lookup_none {α β : Type} [DecidableEq α] (l : List (α × β)) (k : α)
    (f : β → β) (h : alookup l k = none) : amodify l k f = l := by
  induction l with
  | nil => rfl
  | cons p rest ih =>
    obtain ⟨a, b⟩ := p
    by_cases hp : a = k
    · subst hp
      simp [alookup] at h
    · simp [alookup, hp] at h
      simp [amodify, hp, ih h]

theorem foldl_onDeath_mobHeap (l : List (Nat × Nat)) :
    ∀ w : World, (l.foldl runOnDeath w).mobHeap = w.mobHeap := by
  induction l with
  | nil => intro w; rfl
  | cons cb rest ih =>
    intro w
    rw [List.foldl_cons, ih]
    rfl

theorem foldl_onDeath_playerHeap (l : List (Nat × Nat)) :
    ∀ w : World, (l.foldl runOnDeath w).playerHeap = w.playerHeap := by
  induction l with
  | nil => intro w; rfl
  | cons cb rest ih =>
    intro w
    rw [List.foldl_cons, ih]
    rfl

theorem mobStats_modifyMob_in_combat (w : World) (mid : Nat) (b : Bool) (mid2 : Nat) :
    ((World.modifyMob w mid (fun mm => { mm with in_combat := b })).getMob mid2).map
      (fun mm => (mm.health, mm.attack_damage))
    = ((w.getMob mid2).map (fun mm => (mm.health, mm.attack_damage))) := by
  by_cases h : mid2 = mid
  · subst h
    cases hm : w.getMob mid2 with
    | none =>
      unfold World.getMob at hm ⊢
      unfold World.modifyMob
      rw [amodify_of_lookup_none _ _ _ hm, hm]
    | some m =>
      simp [getMob_modifyMob_self w mid2 _ m hm, hm]
  · rw [getMob_modifyMob_ne w mid mid2 _ h]

theorem mob_take_damage_ok (w : World) (mid : Nat) (dmg : Int) (w2 : World) (m : Mob)
    (hm : w.getMob mid = some m) (hok : Mob.take_damage w mid dmg = Except.ok w2) :
    (∃ m2, w2.getMob mid = some m2 ∧ m2.health = m.health - dmg
       ∧ m2.attack_damage = m.attack_damage) ∧
    w2.playerHeap = w.playerHeap := by
  simp only [Mob.take_damage, hm] at hok
  by_cases hlt : m.health - dmg < 0
  · simp only [if_pos hlt] at hok
    have hm1 : (w.setMob mid { m with health := m.health - dmg }).getMob mid
        = some { m with health := m.health - dmg } := getMob_setMob_self w mid _
    simp only [Mob.die, hm1] at hok
    cases hroom : m.room with
    | none =>
      simp only [hroom] at hok
      exact absurd hok (wcrash_ne_ok _ _)
    | some rid =>
      simp only [hroom] at hok
      have hw2 := wok_inj _ _ hok
      subst hw2
      have hgf : ((m.on_death).foldl runOnDeath
          (Room.broadcast (w.setMob mid { m with health := m.health - dmg, room := some rid })
            rid (m.name ++ " dies."))).getMob mid
          = some { m with health := m.health - dmg, room := some rid } := by
        show alookup ((m.on_death).foldl runOnDeath _).mobHeap mid = _
        rw [foldl_onDeath_mobHeap, broadcast_mobHeap]
        exact getMob_setMob_self w mid _
      constructor
      · exact ⟨_, getMob_modifyMob_self _ mid (fun m2 => { m2 with room := none }) _ hgf,
          rfl, rfl⟩
      · show (List.foldl runOnDeath _ _).playerHeap = w.playerHeap
        rw [foldl_onDeath_playerHeap, broadcast_playerHeap]
        rfl
  · simp only [if_neg hlt] at hok
    have hw2 : w.setMob mid { m with health := m.health - dmg } = w2 := wok_inj _ _ hok
    subst hw2
    exact ⟨⟨_, getMob_setMob_self w mid _, rfl, rfl⟩, rfl⟩

theorem player_take_damage_ok (w : World) (pname : String) (dmg : Int) (w2 : World)
    (p : Player) (hp : w.getPlayer pname = some p)
    (hok : Player.take_damage w pname dmg = Except.ok w2) :
    (∃ p2, w2.getPlayer pname = some p2 ∧ p2.health = p.health - dmg
       ∧ p2.attack_damage = p.attack_damage
       ∧ (p2.combat = p.combat ∨ p2.combat = none)) ∧
    (∀ mid2, ((w2.getMob mid2).map (fun mm => (mm.health, mm.attack_damage)))
      = ((w.getMob mid2).map (fun mm => (mm.health, mm.attack_damage)))) := by
  simp only [Player.take_damage, hp] at hok
  by_cases hlt : p.health - dmg < 0
  · simp only [if_pos hlt] at hok
    have hp1 : (w.setPlayer pname { p with health := p.health - dmg }).getPlayer pname
        = some { p with health := p.health - dmg } := getPlayer_setPlayer_self w pname _
    simp only [Player.die, hp1] at hok
    cases hc : p.combat with
    | none =>
      simp only [hc] at hok
      have hw2 := wok_inj _ _ hok
      subst hw2
      have hp1b : (w.setPlayer pname
          { p with health := p.health - dmg, combat := none }).getPlayer pname
          = some { p with health := p.health - dmg, combat := none } :=
        getPlayer_setPlayer_self w pname _
      have h2 := getPlayer_modifyPlayer_self
        (w.setPlayer pname { p with health := p.health - dmg, combat := none }) pname
        (fun p2 => { p2 with combat := none }) _ hp1b
      have h3 : ((((w.setPlayer pname { p with health := p.health - dmg, combat := none
          }).modifyPlayer pname
          (fun p2 => { p2 with combat := none })).send pname "You die.")).getPlayer pname
          = some { p with health := p.health - dmg, combat := none } := h2
      refine ⟨⟨_, getPlayer_modifyPlayer_self _ pname
        (fun p2 => { p2 with room := none }) _ h3, rfl, rfl, Or.inr rfl⟩, fun mid2 => rfl⟩
    | some c =>
      simp only [hc] at hok
      have hw2 := wok_inj _ _ hok
      subst hw2
      have h0 : (World.modifyMob (w.setPlayer pname
          { p with health := p.health - dmg, combat := some c })
          c.target (fun m => { m with in_combat := false })).getPlayer pname
          = some { p with health := p.health - dmg, combat := some c } :=
        getPlayer_setPlayer_self w pname _
      have h2 := getPlayer_modifyPlayer_self _ pname
        (fun p2 => { p2 with combat := none }) _ h0
      have h3 : (((World.modifyMob (w.setPlayer pname
          { p with health := p.health - dmg, combat := some c })
          c.target (fun m => { m with in_combat := false })).modifyPlayer pname
          (fun p2 => { p2 with combat := none })).send pname "You die.").getPlayer pname
          = some { p with health := p.health - dmg, combat := none } := h2
      constructor
      · exact ⟨_, getPlayer_modifyPlayer_self _ pname
          (fun p2 => { p2 with room := none }) _ h3, rfl, rfl, Or.inr rfl⟩
      · intro mid2
        exact mobStats_modifyMob_in_combat
          (w.setPlayer pname { p with health := p.health - dmg, combat := some c })
          c.target false mid2
  · simp only [if_neg hlt] at hok
    have hw2 := wok_inj _ _ hok
    subst hw2
    refine ⟨⟨_, getPlayer_setPlayer_self w pname _, rfl, rfl, Or.inl rfl⟩, fun mid2 => rfl⟩

theorem update_combat_step (w : World) (pname : String) (o : Oracle) (p : Player)
    (c : Combat) (m : Mob) (w1 : World)
    (hp : w.getPlayer pname = some p) (hc : p.combat = some c)
    (hm : w.getMob c.target = some m)
    (hab : p.attack_damage.1 < p.attack_damage.2)
    (hmd : m.attack_damage.1 < m.attack_damage.2)
    (hok : Player.update w pname o = Except.ok w1) :
    ∃ (d1 d2 : Nat) (p1 : Player) (m1 : Mob),
      p.attack_damage.1 ≤ d1 ∧ d1 < p.attack_damage.2 ∧
      m.attack_damage.1 ≤ d2 ∧ d2 < m.attack_damage.2 ∧
      w1.getMob c.target = some m1 ∧ m1.health = m.health - (d1 : Int)
      ∧ m1.attack_damage = m.attack_damage ∧
      w1.getPlayer pname = some p1 ∧ p1.health = p.health - (d2 : Int)
      ∧ p1.attack_damage = p.attack_damage ∧
      (p1.combat = some c ∨ p1.combat = none) := by
  obtain ⟨hb1, hb2⟩ := randrange_bounds p.attack_damage.1 p.attack_damage.2
    (o.roll_player pname) hab
  obtain ⟨hb3, hb4⟩ := randrange_bounds m.attack_damage.1 m.attack_damage.2
    (o.roll_mob pname) hmd
  simp only [Player.update, hp, hc] at hok
  simp only [Player.attack, hp, hc, hm] at hok
  by_cases hini : c.player_initiative = true
  · simp only [if_pos hini] at hok
    split at hok
    next e htd => exact Except.noConfusion hok
    next w2 htd =>
      obtain ⟨⟨m2, hm2, hm2h, hm2ad⟩, hph⟩ := mob_take_damage_ok _ _ _ _ m (by exact hm) htd
      have hpw2 : w2.getPlayer pname = some p := by
        unfold World.getPlayer
        rw [hph]
        exact hp
      obtain ⟨⟨p2, hp2, hp2h, hp2ad, hp2c⟩, hmobs⟩ :=
        player_take_damage_ok _ _ _ _ p (by exact hpw2) hok
      have hstatm := hmobs c.target
      rw [getMob_send, hm2] at hstatm
      cases hw1m : w1.getMob c.target with
      | none =>
        rw [hw1m] at hstatm
        simp at hstatm
      | some m1 =>
        rw [hw1m] at hstatm
        have hpair := Option.some.inj hstatm
        have hh : m1.health = m2.health := congrArg Prod.fst hpair
        have had : m1.attack_damage = m2.attack_damage := congrArg Prod.snd hpair
        refine ⟨randrange p.attack_damage.1 p.attack_damage.2 (o.roll_player pname),
          randrange m.attack_damage.1 m.attack_damage.2 (o.roll_mob pname),
          p2, m1, hb1, hb2, hb3, hb4, rfl, ?_, ?_, hp2, hp2h, hp2ad, ?_⟩
        · rw [hh, hm2h]
        · rw [had, hm2ad]
        · rcases hp2c with h | h
          · left
            rw [h, hc]
          · right
            exact h
  · simp only [if_neg hini] at hok
    split at hok
    next e htd => exact Except.noConfusion hok
    next w2 htd =>
      obtain ⟨⟨p2, hp2, hp2h, hp2ad, hp2c⟩, hmobs⟩ :=
        player_take_damage_ok _ _ _ _ p (by exact hp) htd
      have hstatm := hmobs c.target
      rw [getMob_send, hm] at hstatm
      cases hw2m : w2.getMob c.target with
      | none =>
        rw [hw2m] at hstatm
        simp at hstatm
      | some mB =>
        rw [hw2m] at hstatm
        have hpair := Option.some.inj hstatm
        have hh : mB.health = m.health := congrArg Prod.fst hpair
        have had : mB.attack_damage = m.attack_damage := congrArg Prod.snd hpair
        obtain ⟨⟨m2, hm2, hm2h, hm2ad⟩, hph⟩ := mob_take_damage_ok _ _ _ _ mB (by exact hw2m) hok
        have hp1 : w1.getPlayer pname = some p2 := by
          unfold World.getPlayer
          rw [hph]
          exact hp2
        refine ⟨randrange p.attack_damage.1 p.attack_damage.2 (o.roll_player pname),
          randrange m.attack_damage.1 m.attack_damage.2 (o.roll_mob pname),
          p2, m2, hb1, hb2, hb3, hb4, hm2, ?_, ?_, hp1, hp2h, hp2ad, ?_⟩
        · rw [hm2h, hh]
        · rw [hm2ad, had]
        · rcases hp2c with h | h
          · left
            rw [h, hc]
          · right
            exact h

theorem runTicks_combat_none (pname : String) (os : Nat → Oracle) :
    ∀ (N : Nat) (w : World) (p : Player), w.getPlayer pname = some p → p.combat = none →
    runTicks pname os w N = Except.ok w := by
  intro N
  induction N with
  | zero => intro w p hp hc; rfl
  | succ n ih =>
    intro w p hp hc
    have hupd : Player.update w pname (os n) = wok w := by
      simp only [Player.update, hp, hc]
    simp only [runTicks, hupd, wok]
    exact ih w p hp hc

/-- C6 amended: randrange damage bounds over a whole session.  If a
player with an active Combat session and damage range (a, b) fights a
target with range (c, d), and N per-tick updates all complete with the
session still active at the end, then the cumulative damage dealt to the
target lies in [N*a, N*(b-1)] and the cumulative damage taken by the
player lies in [N*c, N*(d-1)] — the randrange stop bound is exclusive,
so each single exchange deals at least the low bound and at most one
below the high bound. -/
theorem combat_damage_bounds (w : World) (pname : String) (os : Nat → Oracle) (N : Nat)
    (p : Player) (c : Combat) (m : Mob) (w1 : World) (p1 : Player)
    (hp : w.getPlayer pname = some p) (hc : p.combat = some c)
    (hm : w.getMob c.target = some m)
    (hab : p.attack_damage.1 < p.attack_damage.2)
    (hmd : m.attack_damage.1 < m.attack_damage.2)
    (hrun : runTicks pname os w N = Except.ok w1)
    (hp1 : w1.getPlayer pname = some p1) (hcs : p1.combat.isSome = true) :
    ∃ m1, w1.getMob c.target = some m1 ∧
      ((N * p.attack_damage.1 : Nat) : Int) ≤ m.health - m1.health ∧
      m.health - m1.health ≤ ((N * (p.attack_damage.2 - 1) : Nat) : Int) ∧
      ((N * m.attack_damage.1 : Nat) : Int) ≤ p.health - p1.health ∧
      p.health - p1.health ≤ ((N * (m.attack_damage.2 - 1) : Nat) : Int) := by
  induction N generalizing w p m with
  | zero =>
    have hww : w = w1 := wok_inj _ _ hrun
    subst hww
    rw [hp] at hp1
    have hpp : p1 = p := (Option.some.inj hp1).symm
    subst hpp
    exact ⟨m, hm, by simp, by simp, by simp, by simp⟩
  | succ n ih =>
    simp only [runTicks] at hrun
    split at hrun
    next e hupd => exact Except.noConfusion hrun
    next wB hupd =>
      obtain ⟨d1, d2, pB, mB, hd1a, hd1b, hd2c, hd2d, hmB, hmBh, hmBad, hpB, hpBh, hpBad,
        hpBc⟩ := update_combat_step w pname (os n) p c m wB hp hc hm hab hmd hupd
      rcases hpBc with hpBc | hpBc
      · have hab2 : pB.attack_damage.1 < pB.attack_damage.2 := by
          rw [hpBad]
          exact hab
        have hmd2 : mB.attack_damage.1 < mB.attack_damage.2 := by
          rw [hmBad]
          exact hmd
        obtain ⟨m1, hm1, ha1, ha2, ha3, ha4⟩ := ih wB pB mB hpB hpBc hmB hab2 hmd2 hrun
        rw [hpBad] at ha1 ha2
        rw [hmBad] at ha3 ha4
        rw [hmBh] at ha1 ha2
        rw [hpBh] at ha3 ha4
        have hcast1 : ((p.attack_damage.1 : Nat) : Int) ≤ (d1 : Int) := by
          exact_mod_cast hd1a
        have hcast2 : (d1 : Int) ≤ ((p.attack_damage.2 - 1 : Nat) : Int) := by
          exact_mod_cast (by omega : d1 ≤ p.attack_damage.2 - 1)
        have hcast3 : ((m.attack_damage.1 : Nat) : Int) ≤ (d2 : Int) := by
          exact_mod_cast hd2c
        have hcast4 : (d2 : Int) ≤ ((m.attack_damage.2 - 1 : Nat) : Int) := by
          exact_mod_cast (by omega : d2 ≤ m.attack_damage.2 - 1)
        refine ⟨m1, hm1, ?_, ?_, ?_, ?_⟩
        · rw [Nat.succ_mul, Nat.cast_add]
          linarith
        · rw [Nat.succ_mul, Nat.cast_add]
          linarith
        · rw [Nat.succ_mul, Nat.cast_add]
          linarith
        · rw [Nat.succ_mul, Nat.cast_add]
          linarith
      · have hdone := runTicks_combat_none pname os n wB pB hpB hpBc
        rw [hdone] at hrun
        have hww : wB = w1 := Except.ok.inj hrun
        subst hww
        rw [hpB] at hp1
        have hpp : p1 = pB := (Option.some.inj hp1).symm
        rw [hpp, hpBc] at hcs
        simp [Option.isSome] at hcs

theorem combat_damage_bounds_witness :
    ∃ w1,
      runTicks "bob" (fun _ => oZero) w_c2 2 = Except.ok w1 ∧
      w1.getPlayer "bob" = some { bob with health := 8 } ∧
      ({ bob with health := 8 } : Player).combat.isSome = true ∧
      ∃ m1, w1.getMob 7 = some m1 ∧
        ((2 * bob.attack_damage.1 : Nat) : Int) ≤ rat7fighting.health - m1.health ∧
        rat7fighting.health - m1.health ≤ ((2 * (bob.attack_damage.2 - 1) : Nat) : Int) ∧
        ((2 * rat7fighting.attack_damage.1 : Nat) : Int)
          ≤ bob.health - ({ bob with health := 8 } : Player).health ∧
        bob.health - ({ bob with health := 8 } : Player).health
          ≤ ((2 * (rat7fighting.attack_damage.2 - 1) : Nat) : Int) := by
  have hrun : runTicks "bob" (fun _ => oZero) w_c2 2
      = Except.ok ((runTicks "bob" (fun _ => oZero) w_c2 2).state) :=
    okB_eq_ok _ (by decide)
  exact ⟨(runTicks "bob" (fun _ => oZero) w_c2 2).state, hrun, by decide, by decide,
    combat_damage_bounds w_c2 "bob" (fun _ => oZero) 2 bob { target := 7 } rat7fighting
      _ { bob with health := 8 } (by decide) (by decide) (by decide) (by decide) (by decide)
      hrun (by decide) (by decide)⟩

/-! ### C6: damage bounds, counterexample part -/

/-- C6 counterexample: damage is drawn with randrange, whose stop bound
is excluded, so the upper bound of the (min, max) pair is never
attainable: with the rat template's range (1, 2) no draw ever deals 2
damage (every draw deals exactly 1). -/
theorem randrange_upper_bound_never_drawn :
    mob1.attack_damage = (1, 2) ∧ ¬ ∃ r, randrange 1 2 r = 2 := by
  refine ⟨rfl, ?_⟩
  intro h
  obtain ⟨r, hr⟩ := h
  simp [randrange, Nat.mod_one] at hr

/-! ### C7: leave with no exit -/

/-- C7: calling Room.leave in a direction with no exit only sends the
asking player one error message listing the valid exits; the world is
otherwise unchanged, so no room's occupant sets (players or mobs) are
mutated. -/
theorem leave_no_exit_only_errors (w : World) (rid : Nat) (pname : String) (dir : Direction)
    (r : Room) (hr : w.getRoom rid = some r) (hd : alookup r.exits dir = none) :
    Room.leave w rid pname dir
      = wok (World.send w pname ("You cannot go that way. Exits: " ++ Room.format_exits r)) ∧
    (Room.leave w rid pname dir).state.rooms = w.rooms ∧
    (Room.leave w rid pname dir).state.playerHeap = w.playerHeap ∧
    (Room.leave w rid pname dir).state.mobHeap = w.mobHeap := by
  have hmain : Room.leave w rid pname dir
      = wok (World.send w pname ("You cannot go that way. Exits: " ++ Room.format_exits r)) := by
    simp only [Room.leave, hr, hd]
  refine ⟨hmain, ?_, ?_, ?_⟩ <;> rw [hmain] <;> rfl

/-- C7 witness: in the initial world, room 1 has no south exit; leaving
south from it produces exactly the error message and no state change. -/
theorem leave_no_exit_only_errors_witness :
    Room.leave mudInit 1 "zoe" Direction.s
      = wok (World.send mudInit "zoe" ("You cannot go that way. Exits: " ++ Room.format_exits Room1)) ∧
    (Room.leave mudInit 1 "zoe" Direction.s).state.rooms = mudInit.rooms ∧
    (Room.leave mudInit 1 "zoe" Direction.s).state.playerHeap = mudInit.playerHeap ∧
    (Room.leave mudInit 1 "zoe" Direction.s).state.mobHeap = mudInit.mobHeap :=
  leave_no_exit_only_errors mudInit 1 "zoe" Direction.s Room1 (by decide) (by decide)

/-! ### C10: health exactly zero does not kill -/

/-- C10: damage exactly equal to current health leaves the entity alive
at health 0: neither Mob.take_damage nor Player.take_damage triggers
death (which requires strictly negative health), and the only state
change is the entity's health field — it stays in its room and in every
room map. -/
theorem damage_equal_to_health_survives (w : World) (mid : Nat) (pname : String)
    (m : Mob) (p : Player) (hm : w.getMob mid = some m) (hp : w.getPlayer pname = some p) :
    Mob.take_damage w mid m.health = wok (World.setMob w mid { m with health := 0 }) ∧
    Player.take_damage w pname p.health = wok (World.setPlayer w pname { p with health := 0 }) := by
  constructor
  · unfold Mob.take_damage
    rw [show World.getMob w mid = some m from hm]
    simp [sub_self]
  · unfold Player.take_damage
    rw [show World.getPlayer w pname = some p from hp]
    simp [sub_self]

/-! ### C2: player death -/

/-- C2 counterexample: Player.die on bob (in room 1, in combat with the
rat) returns normally, yet bob is still registered in the world's player
map and still listed in room 1's occupant map: a player death performs
no removal from the registry or the room, contrary to the claim. -/
theorem player_die_leaves_registry_and_room :
    (Player.die w_c2 "bob").okB = true ∧
    ((Player.die w_c2 "bob").state.getPlayer "bob").isSome = true ∧
    ((Player.die w_c2 "bob").state.getRoom 1).map Room.players = some ["bob"] := by
  refine ⟨by decide, by decide, by decide⟩

/-- C2 amended: Player.die clears the opposing NPC's in_combat flag,
clears the player's combat session, sends the death notice, and clears
the player's location — but the player stays in the world player
registry and every room's occupant map is left untouched. -/
theorem player_die_actions (w : World) (pname : String) (p : Player) (c : Combat) (m : Mob)
    (hp : w.getPlayer pname = some p) (hc : p.combat = some c)
    (hm : w.getMob c.target = some m) :
    ∃ w4, Player.die w pname = wok w4 ∧
      w4.getMob c.target = some { m with in_combat := false } ∧
      w4.getPlayer pname = some { p with combat := none, room := none } ∧
      w4.log = w.log ++ [(pname, "You die.")] ∧
      w4.rooms = w.rooms ∧
      (w4.getPlayer pname).isSome = true := by
  simp only [Player.die, hp, hc]
  refine ⟨_, rfl, ?_, ?_, rfl, rfl, ?_⟩
  · rw [getMob_modifyPlayer, getMob_send, getMob_modifyPlayer]
    exact getMob_modifyMob_self w c.target _ m hm
  · have h1 : (w.modifyMob c.target (fun m2 => { m2 with in_combat := false })).getPlayer pname
        = some p := hp
    have h2 := getPlayer_modifyPlayer_self _ pname
      (fun p2 => { p2 with combat := none }) p h1
    have h3 : ((((w.modifyMob c.target (fun m2 => { m2 with in_combat := false })).modifyPlayer
        pname (fun p2 => { p2 with combat := none })).send pname "You die.")).getPlayer pname
        = some { p with combat := none } := h2
    exact getPlayer_modifyPlayer_self _ pname (fun p2 => { p2 with room := none }) _ h3
  · have h1 : (w.modifyMob c.target (fun m2 => { m2 with in_combat := false })).getPlayer pname
        = some p := hp
    have h2 := getPlayer_modifyPlayer_self _ pname
      (fun p2 => { p2 with combat := none }) p h1
    have h3 : ((((w.modifyMob c.target (fun m2 => { m2 with in_combat := false })).modifyPlayer
        pname (fun p2 => { p2 with combat := none })).send pname "You die.")).getPlayer pname
        = some { p with combat := none } := h2
    rw [getPlayer_modifyPlayer_self _ pname (fun p2 => { p2 with room := none }) _ h3]
    rfl

/-- C2 witness: the amended death actions evaluated on the bob fixture. -/
theorem player_die_actions_witness :
    ∃ w4, Player.die w_c2 "bob" = wok w4 ∧
      w4.getMob 7 = some { rat7fighting with in_combat := false } ∧
      w4.getPlayer "bob" = some { bob with combat := none, room := none } ∧
      w4.log = w_c2.log ++ [("bob", "You die.")] ∧
      w4.rooms = w_c2.rooms ∧
      (w4.getPlayer "bob").isSome = true :=
  player_die_actions w_c2 "bob" bob { target := 7 } rat7fighting
    (by decide) (by decide) (by decide)

/-! ### C9: enter broadcast ordering -/

/-- C9: Room.enter broadcasts the arrival exactly to the players present
before the entering player is added (so, when the player is not already
an occupant, it never receives its own announcement), then adds the
player, and finally sends the entering player the room description. -/
theorem enter_broadcasts_only_to_prior_occupants (w : World) (rid : Nat) (pname : String)
    (r : Room) (hr : w.getRoom rid = some r) (hp : pname ∉ r.players) :
    ∃ w4, Room.enter w rid pname = wok w4 ∧
      w4.log = (w.log ++ r.players.map (fun q => (q, pname ++ " enters.")))
        ++ [(pname, Room.format_room w { r with players := r.players ++ [pname] })] ∧
      (∀ t ∈ r.players.map (fun q => (q, pname ++ " enters.")), t.1 ≠ pname) ∧
      w4.getRoom rid = some { r with players := r.players ++ [pname] } := by
  have hins : dinsert r.players pname = r.players ++ [pname] := dinsert_of_not_mem _ _ hp
  have hroom3 : (((Room.broadcast w rid (pname ++ " enters.")).setRoom rid
      { r with players := dinsert r.players pname }).modifyPlayer pname
      (fun p => { p with room := some rid })).getRoom rid
      = some { r with players := dinsert r.players pname } := by
    rw [getRoom_modifyPlayer]
    exact getRoom_setRoom_self _ rid _
  simp only [Room.enter, hr, hroom3]
  refine ⟨_, rfl, ?_, ?_, ?_⟩
  · have hlog1 : (Room.broadcast w rid (pname ++ " enters.")).log
        = w.log ++ r.players.map (fun q => (q, pname ++ " enters.")) :=
      broadcast_log w rid _ r hr
    have hheap : (((Room.broadcast w rid (pname ++ " enters.")).setRoom rid
        { r with players := dinsert r.players pname }).modifyPlayer pname
        (fun p => { p with room := some rid })).mobHeap = w.mobHeap := by
      have := broadcast_mobHeap w rid (pname ++ " enters.")
      exact this
    rw [show (((((Room.broadcast w rid (pname ++ " enters.")).setRoom rid
        { r with players := dinsert r.players pname }).modifyPlayer pname
        (fun p => { p with room := some rid }))).send pname
          (Room.format_room (((Room.broadcast w rid (pname ++ " enters.")).setRoom rid
            { r with players := dinsert r.players pname }).modifyPlayer pname
            (fun p => { p with room := some rid }))
            { r with players := dinsert r.players pname })).log
        = (Room.broadcast w rid (pname ++ " enters.")).log
          ++ [(pname, Room.format_room (((Room.broadcast w rid (pname ++ " enters.")).setRoom
            rid { r with players := dinsert r.players pname }).modifyPlayer pname
            (fun p => { p with room := some rid }))
            { r with players := dinsert r.players pname })] from rfl]
    rw [hlog1, format_room_heap_eq _ w _ hheap, hins]
  · intro t ht
    simp only [List.mem_map] at ht
    obtain ⟨q, hq, rfl⟩ := ht
    intro heq
    have heq2 : q = pname := heq
    rw [heq2] at hq
    exact hp hq
  · rw [getRoom_send, hroom3, hins]

/-- C9 witness: dave entering room 2 (occupied by carol): carol alone
receives the enters-broadcast, dave receives the description. -/
theorem enter_broadcasts_only_to_prior_occupants_witness :
    ∃ w4, Room.enter w_c9 2 "dave" = wok w4 ∧
      w4.log = (w_c9.log ++ (room2_c9.players.map (fun q => (q, "dave" ++ " enters."))))
        ++ [("dave", Room.format_room w_c9 { room2_c9 with players := room2_c9.players ++ ["dave"] })] ∧
      (∀ t ∈ room2_c9.players.map (fun q => (q, "dave" ++ " enters.")), t.1 ≠ "dave") ∧
      w4.getRoom 2 = some { room2_c9 with players := room2_c9.players ++ ["dave"] } :=
  enter_broadcasts_only_to_prior_occupants w_c9 2 "dave" room2_c9 (by decide) (by decide)

/-! ### C8: mob tick behavior -/

/-- C8: the complete Mob.update case analysis.  A roomless NPC does
nothing; an in-combat NPC does nothing at all (in particular the move
lock is not decremented); otherwise a positive move lock is decremented
and nothing else happens; otherwise the NPC moves through the uniformly
chosen exit (index draw mod number of exits), first adding its move
cooldown to the move lock, exactly when it wanders, its room has at
least one exit, and the uniform draw is at most its move chance. -/
theorem mob_update_cases (w : World) (mid : Nat) (o : Oracle) (m : Mob)
    (hm : w.getMob mid = some m) :
    (m.room = none → Mob.update w mid o = wok w) ∧
    (m.in_combat = true → Mob.update w mid o = wok w) ∧
    (∀ rid, m.room = some rid → m.in_combat = false → 0 < m.move_lock →
      Mob.update w mid o
        = wok (w.modifyMob mid (fun m2 => { m2 with move_lock := m2.move_lock - 1 }))) ∧
    (∀ rid r, m.room = some rid → m.in_combat = false → ¬ 0 < m.move_lock →
      w.getRoom rid = some r →
      (¬ (m.wanders = true ∧ 0 < r.exits.length ∧ o.move_roll mid ≤ m.move_chance) →
        Mob.update w mid o = wok w) ∧
      ((m.wanders = true ∧ 0 < r.exits.length ∧ o.move_roll mid ≤ m.move_chance) →
        ∃ dir, (r.exits.map Prod.fst).get? (o.exit_roll mid % r.exits.length) = some dir ∧
          Mob.update w mid o = Room.move_mob
            (w.modifyMob mid (fun m2 => { m2 with move_lock := m2.move_lock + m2.move_cooldown }))
            rid mid dir)) := by
  refine ⟨?_, ?_, ?_, ?_⟩
  · intro hroom
    simp only [Mob.update, hm, hroom]
  · intro hic
    simp only [Mob.update, hm]
    cases hroom : m.room with
    | none => rfl
    | some rid => simp [hic]
  · intro rid hroom hic hlock
    simp only [Mob.update, hm, hroom, hic, Bool.false_eq_true, if_false, if_pos hlock]
  · intro rid r hroom hic hlock hr
    constructor
    · intro hcond
      simp only [Mob.update, hm, hroom, hic, Bool.false_eq_true, if_false, if_neg hlock, hr,
        if_neg hcond]
    · intro hcond
      obtain ⟨dir, hdir⟩ := random_exit_isSome r (o.exit_roll mid) hcond.2.1
      refine ⟨dir, hdir, ?_⟩
      simp only [Mob.update, hm, hroom, hic, Bool.false_eq_true, if_false, if_neg hlock, hr,
        if_pos hcond, random_exit_of_pos r (o.exit_roll mid) hcond.2.1, hdir]

/-- C8 witness: the move-locked rat (lock 5) in room 2 only ticks its
lock down to 4. -/
theorem mob_update_cases_witness :
    Mob.update w_c8 8 oZero
      = wok (w_c8.modifyMob 8 (fun m2 => { m2 with move_lock := m2.move_lock - 1 })) :=
  (mob_update_cases w_c8 8 oZero rat8 (by decide)).2.2.1 2 (by decide) (by decide) (by decide)

/-- C10 witness: in the combat fixture, the rat (health 10) hit for
exactly 10 survives at health 0, and so does bob. -/
theorem damage_equal_to_health_survives_witness :
    Mob.take_damage w_c2 7 rat7fighting.health
      = wok (World.setMob w_c2 7 { rat7fighting with health := 0 }) ∧
    Player.take_damage w_c2 "bob" bob.health
      = wok (World.setPlayer w_c2 "bob" { bob with health := 0 }) :=
  damage_equal_to_health_survives w_c2 7 "bob" rat7fighting bob (by decide) (by decide)

end PMud
